import Mathlib

/-!
# Fogline — verification of the game rules engine

Shallow embedding of the gameplay core of the Fogline two-player tile/card
battle game (the monolithic client script): board model, placement frontier,
auto-placement, combat resolution (`resolveAttackLocally`), the message
appliers (`applyReveal`, `applyMove`, `applyAttackResult`,
`applyPlacement`) and the click handlers, followed by theorems about the
specified properties.

Conventions of the embedding:
* JS objects become structures; `null`/`undefined` fields become `Option`.
* The JS board is an array of card objects; in-place mutation of a card
  found by index becomes `modifyAt`.
* `findIndex` returning `-1` becomes `Option Nat` (`none` for `-1`).
* Grid positions, stored in JS as `"x_y"` strings in a `Set`, become
  `Int × Int` pairs in a `List` (string keys are injective on integer
  coordinates; the `Set` is modelled up to membership).
* Lines that only log to the UI are dropped, except that a log line which
  dereferences a possibly-`null` field would throw in JS before any state
  mutation; such a throw is modelled as returning the state unchanged.
* `Math.random`-driven choices are abstracted by an oracle function
  supplied as a parameter, taken modulo the number of alternatives.
-/

namespace Fogline

/-- The three terrain edge types (`TERRAIN_TYPES`). -/
inductive Terrain where
  | Plains
  | Forest
  | Mountain
deriving DecidableEq, Repr

/-- A terrain card's four edges (`fixedTerrainCards` entries). -/
structure TerrainEdges where
  top : Terrain
  right : Terrain
  bottom : Terrain
  left : Terrain
deriving DecidableEq, Repr

/-- The stats record of a unit (`unitStats[...].attack/defense`). -/
structure Stats where
  attack : Int
  defense : Int
deriving DecidableEq, Repr

/-- A unit data object as placed in pools and on cards:
`{ unitName, instance, stats, imagePath, canTraverse }`. -/
structure UnitData where
  unitName : String
  instanceNum : Nat
  stats : Stats
  imagePath : String
  canTraverse : List Terrain
deriving DecidableEq, Repr

/-- A terrain data object `{ terrainIndex, terrainData, imagePath }`. -/
structure TerrainObj where
  terrainIndex : Nat
  terrainData : TerrainEdges
  imagePath : String
deriving DecidableEq, Repr

/-- A board card `{ id, unitData, terrainData, hidden, owner, gridX, gridY }`
(the DOM `element` and `hasImageError` fields are rendering-only and not
modelled). `unitData` is `none` once the unit has vacated; `owner` is
`none` for an emptied tile. -/
structure Card where
  id : Nat
  unitData : Option UnitData
  terrainData : TerrainObj
  hidden : Bool
  owner : Option Nat
  gridX : Int
  gridY : Int
deriving DecidableEq, Repr

/-- A defeated-units list entry `{ unitData, terrainData, owner }`. -/
structure DefeatedUnit where
  unitData : Option UnitData
  terrainData : TerrainObj
  owner : Option Nat
deriving DecidableEq, Repr

/-- The game phase values of the JS global `gameState`. -/
inductive GamePhase where
  | CONNECTING
  | PLACEMENT
  | GAMEPLAY
  | GAMEOVER
  | DISCONNECTED
deriving DecidableEq, Repr

/-- The mutable game globals of the client script gathered into one state
record: `board`, `currentPlayer`, `placedPositions`, `selectedCardIndex`,
`defeatedUnits`, `nextCardId`, `gameState`, `isResolvingAttack`,
`playerAvailableUnits`/`playerAvailableTerrains` (split per player),
`placedCardPairCount` and the two placement selections. -/
structure GameState where
  board : List Card
  currentPlayer : Nat
  placedPositions : List (Int × Int)
  selectedCardIndex : Option Nat
  defeatedUnits : List DefeatedUnit
  nextCardId : Nat
  gameState : GamePhase
  isResolvingAttack : Bool
  availableUnits1 : List UnitData
  availableUnits2 : List UnitData
  availableTerrains1 : List TerrainObj
  availableTerrains2 : List TerrainObj
  placedCardPairCount : Nat
  selectedUnitForPlacement : Option UnitData
  selectedTerrainForPlacement : Option TerrainObj
deriving DecidableEq, Repr

/-- Constant `START_GRID_COORD = 10`. -/
def START_GRID_COORD : Int := 10

/-- Constant `TOTAL_CARD_PAIRS_TO_PLACE = 16`. -/
def TOTAL_CARD_PAIRS_TO_PLACE : Nat := 16

/-- The `'Mobile Command'` unit name used by the win-condition checks. -/
def commandUnitName : String := "Mobile Command"

/-- Terrain rules table: the `defenseBonus` of each edge type
(`terrainRules[...].defenseBonus`, with the JS `|| 0` fallback which
leaves the stored 0 values unchanged). -/
def terrainRules : Terrain → Int
  | Terrain.Plains => 0
  | Terrain.Forest => 1
  | Terrain.Mountain => 0

/-- The 8 fixed terrain card layouts (`fixedTerrainCards`). -/
def fixedTerrainCards : List TerrainEdges :=
  [ { top := Terrain.Plains, right := Terrain.Forest, bottom := Terrain.Plains, left := Terrain.Forest },
    { top := Terrain.Plains, right := Terrain.Mountain, bottom := Terrain.Plains, left := Terrain.Mountain },
    { top := Terrain.Forest, right := Terrain.Plains, bottom := Terrain.Forest, left := Terrain.Plains },
    { top := Terrain.Mountain, right := Terrain.Plains, bottom := Terrain.Mountain, left := Terrain.Plains },
    { top := Terrain.Forest, right := Terrain.Forest, bottom := Terrain.Plains, left := Terrain.Mountain },
    { top := Terrain.Mountain, right := Terrain.Mountain, bottom := Terrain.Plains, left := Terrain.Forest },
    { top := Terrain.Forest, right := Terrain.Mountain, bottom := Terrain.Forest, left := Terrain.Plains },
    { top := Terrain.Mountain, right := Terrain.Forest, bottom := Terrain.Mountain, left := Terrain.Plains } ]

/-- The four orthogonal neighbour positions, in the order the placement
code enumerates them: `[x+1_y, x-1_y, x_y+1, x_y-1]`. -/
def neighborSpots (p : Int × Int) : List (Int × Int) :=
  [(p.1 + 1, p.2), (p.1 - 1, p.2), (p.1, p.2 + 1), (p.1, p.2 - 1)]

/-- The legal placement frontier. This block appears verbatim three times
in the script (in `generateAutoPlacements`, in
`handleBoardClickForPlacement` and in `updateUI`): if nothing is placed
the single spot is `(START_GRID_COORD, START_GRID_COORD)`; otherwise every
orthogonal neighbour of a placed position that is not itself placed. The
JS accumulates into a `Set`; membership is unaffected by the deduplication,
so a plain list is used. -/
def potentialSpots (placedPositions : List (Int × Int)) : List (Int × Int) :=
  if placedPositions.isEmpty then
    [(START_GRID_COORD, START_GRID_COORD)]
  else
    (placedPositions.flatMap neighborSpots).filter
      (fun q => !(placedPositions.contains q))

/-- Spec-side notion used by the frontier claim: `q` is an orthogonal
(edge-sharing, non-diagonal) neighbour of `p`. -/
def orthAdjacent (p q : Int × Int) : Prop :=
  (q.1 = p.1 + 1 ∧ q.2 = p.2) ∨ (q.1 = p.1 - 1 ∧ q.2 = p.2) ∨
  (q.1 = p.1 ∧ q.2 = p.2 + 1) ∨ (q.1 = p.1 ∧ q.2 = p.2 - 1)

instance (p q : Int × Int) : Decidable (orthAdjacent p q) := by
  unfold orthAdjacent; infer_instance

/-- Replace the element at index `i` (no-op when out of range): the
embedding of an in-place mutation of `board[i]`. -/
def modifyAt {α : Type} (l : List α) (i : Nat) (f : α → α) : List α :=
  match l, i with
  | [], _ => []
  | a :: as, 0 => f a :: as
  | a :: as, n + 1 => a :: modifyAt as n f

/-- Embedding of `findCardIndexById`: `board.findIndex(card => card && card.id === id)`,
with `-1` modelled as `none`. -/
def findCardIndexById (board : List Card) (cardId : Nat) : Option Nat :=
  match board with
  | [] => none
  | c :: rest =>
    if c.id = cardId then some 0
    else (findCardIndexById rest cardId).map (· + 1)

/-- The four orthogonal step directions returned by `getDirectionInfo`
(`direction` field; the `opposite` field is recovered by `oppositeEdge`). -/
inductive Dir where
  | right
  | left
  | bottom
  | top
deriving DecidableEq, Repr

/-- Embedding of `getDirectionInfo(card1, card2)`: the direction of the single-step
offset from `card1` to `card2`, `none` when not orthogonally adjacent. -/
def getDirectionInfo (card1 card2 : Card) : Option Dir :=
  let dx := card2.gridX - card1.gridX
  let dy := card2.gridY - card1.gridY
  if dx = 1 ∧ dy = 0 then some Dir.right
  else if dx = -1 ∧ dy = 0 then some Dir.left
  else if dx = 0 ∧ dy = 1 then some Dir.bottom
  else if dx = 0 ∧ dy = -1 then some Dir.top
  else none

/-- Lookup `terrainData[directionInfo.opposite]`: the edge of the target tile
facing the mover (moving right enters via the target's left edge, etc.). -/
def oppositeEdge (t : TerrainEdges) : Dir → Terrain
  | Dir.right => t.left
  | Dir.left => t.right
  | Dir.bottom => t.top
  | Dir.top => t.bottom

/-- Embedding of `canUnitTraverse(unitData, terrainType)`: false on a missing unit,
otherwise membership of the edge type in the unit's `canTraverse` list. -/
def canUnitTraverse (unitData : Option UnitData) (terrainType : Terrain) : Bool :=
  match unitData with
  | none => false
  | some u => u.canTraverse.contains terrainType

/-- How a card owner renders inside a JS template string. -/
def ownerStr : Option Nat → String
  | some n => toString n
  | none => "null"

/-- Predicate `c.unitData && c.unitData.unitName === commandUnitName`. -/
def hasCommandUnit (c : Card) : Bool :=
  match c.unitData with
  | some u => u.unitName == commandUnitName
  | none => false

/-- Predicate `c.unitData && c.unitData.unitName !== commandUnitName`. -/
def hasNonCommandUnit (c : Card) : Bool :=
  match c.unitData with
  | some u => !(u.unitName == commandUnitName)
  | none => false

/-- The `attackResult` message payload `{ winnerCardId, loserCardId,
defeatedUnitData, attackerMoved, nextPlayer, gameOver, winMessage }`. -/
structure AttackResultData where
  winnerCardId : Nat
  loserCardId : Nat
  defeatedUnitData : DefeatedUnit
  attackerMoved : Bool
  nextPlayer : Nat
  gameOver : Bool
  winMessage : String
deriving DecidableEq, Repr

/-- The main body of `resolveAttackLocally` once both cards and both units
are known to exist and the adjacency direction is known (split out of
`resolveAttackLocally` so that theorems can name the computed outcome):
combat values, defender-wins-ties comparison, winner/loser assignment,
defeated-unit snapshot and the two win-condition checks, exactly as in
the source. -/
def mkAttackOutcome (board : List Card) (currentPlayer : Nat)
    (attackerCard defenderCard : Card) (attackerUnit defenderUnit : UnitData)
    (dir : Dir) (nextPlayer : Nat) : AttackResultData :=
  let defenseEdgeTerrain := oppositeEdge defenderCard.terrainData.terrainData dir
  let terrainBonus := terrainRules defenseEdgeTerrain
  let attackValue := attackerUnit.stats.attack
  let defenseValue := defenderUnit.stats.defense + terrainBonus
  let attackerWins : Bool := decide (attackValue > defenseValue)
  let winnerCard := if attackerWins then attackerCard else defenderCard
  let loserCard := if attackerWins then defenderCard else attackerCard
  let loserUnit := if attackerWins then defenderUnit else attackerUnit
  let defeatedUnitData : DefeatedUnit :=
    { unitData := loserCard.unitData, terrainData := loserCard.terrainData,
      owner := loserCard.owner }
  let loserIsCommand := loserUnit.unitName == commandUnitName
  let remainingUnitsLoser :=
    (board.filter (fun c =>
      c.owner == loserCard.owner && hasNonCommandUnit c && c.id != loserCard.id)).length
  let commandLoserExists :=
    board.any (fun c =>
      hasCommandUnit c && c.owner == loserCard.owner && c.id != loserCard.id)
  let gameOver : Bool :=
    if loserIsCommand then true else remainingUnitsLoser == 0 && commandLoserExists
  let winMessage :=
    if loserIsCommand then
      "Player " ++ ownerStr winnerCard.owner ++ " wins by capturing the Mobile Command!"
    else if remainingUnitsLoser == 0 && commandLoserExists then
      "Player " ++ ownerStr winnerCard.owner ++ " wins by eliminating all other movable units!"
    else ""
  { winnerCardId := winnerCard.id, loserCardId := loserCard.id,
    defeatedUnitData := defeatedUnitData, attackerMoved := attackerWins,
    nextPlayer := if gameOver then currentPlayer else nextPlayer,
    gameOver := gameOver, winMessage := winMessage }

/-- Embedding of `resolveAttackLocally(attackerIndex, defenderIndex, nextPlayer)`: pure
outcome computation, no board mutation. The JS `{ error: true }` result
(card or unit missing) becomes `none`; a non-adjacent pair would throw on
`directionInfo.opposite` before building any result and also becomes
`none`. Reads the global `currentPlayer` for the game-over case. -/
def resolveAttackLocally (st : GameState) (attackerIndex defenderIndex nextPlayer : Nat) :
    Option AttackResultData :=
  match st.board[attackerIndex]?, st.board[defenderIndex]? with
  | some attackerCard, some defenderCard =>
    match attackerCard.unitData, defenderCard.unitData with
    | some attackerUnit, some defenderUnit =>
      match getDirectionInfo attackerCard defenderCard with
      | some dir =>
        some (mkAttackOutcome st.board st.currentPlayer attackerCard defenderCard
          attackerUnit defenderUnit dir nextPlayer)
      | none => none
    | _, _ => none
  | _, _ => none

/-- Embedding of `applyReveal(data)`: find the card by id (unknown id: return with no
change) and clear its `hidden` flag if set. -/
def applyReveal (st : GameState) (cardId : Nat) : GameState :=
  match findCardIndexById st.board cardId with
  | none => st
  | some cardIndex =>
    match st.board[cardIndex]? with
    | none => st
    | some card =>
      if card.hidden then
        { st with board := modifyAt st.board cardIndex (fun c => { c with hidden := false }) }
      else st

/-- Embedding of `applyMove(data)`: find both cards by id (either unknown: return with
no change); the log line dereferences `directionInfo.opposite` and
`attackerCard.unitData.unitName`, so a non-adjacent pair or a unit-less
attacker throws before any mutation (modelled as no change). Otherwise the
unit transfers to the target tile (revealed), the origin tile is emptied
and re-hidden, the selection is cleared and the turn becomes `nextPlayer`. -/
def applyMove (st : GameState) (attackerCardId targetCardId nextPlayer : Nat) : GameState :=
  match findCardIndexById st.board attackerCardId, findCardIndexById st.board targetCardId with
  | some attackerCardIndex, some targetCardIndex =>
    match st.board[attackerCardIndex]?, st.board[targetCardIndex]? with
    | some attackerCard, some targetCard =>
      match getDirectionInfo attackerCard targetCard, attackerCard.unitData with
      | some _, some _ =>
        let b1 := modifyAt st.board targetCardIndex (fun t =>
          { t with unitData := attackerCard.unitData, owner := attackerCard.owner,
                   hidden := false })
        let b2 := modifyAt b1 attackerCardIndex (fun a =>
          { a with unitData := none, owner := none, hidden := true })
        { st with board := b2, selectedCardIndex := none, currentPlayer := nextPlayer,
                  isResolvingAttack := false }
      | _, _ => st
    | _, _ => st
  | _, _ => st

/-- Embedding of `applyAttackResult(data)`: find winner and loser by id (either unknown:
return with no change); the log line dereferences both `unitData.unitName`
fields, so a missing unit throws before any mutation (modelled as no
change). Otherwise append the defeated snapshot, rewrite the two tiles
according to `attackerMoved`, clear the selection and the resolving flag,
and either enter GAMEOVER (turn unchanged) or pass the turn. -/
def applyAttackResult (st : GameState) (d : AttackResultData) : GameState :=
  match findCardIndexById st.board d.winnerCardId, findCardIndexById st.board d.loserCardId with
  | some winnerCardIndex, some loserCardIndex =>
    match st.board[winnerCardIndex]?, st.board[loserCardIndex]? with
    | some winnerCard, some loserCard =>
      match winnerCard.unitData, loserCard.unitData with
      | some _, some _ =>
        let newBoard :=
          if d.attackerMoved then
            modifyAt
              (modifyAt st.board loserCardIndex (fun l =>
                { l with unitData := winnerCard.unitData, owner := winnerCard.owner,
                         hidden := false }))
              winnerCardIndex (fun w =>
                { w with unitData := none, owner := none, hidden := true })
          else
            modifyAt
              (modifyAt st.board loserCardIndex (fun l =>
                { l with unitData := none, owner := none, hidden := true }))
              winnerCardIndex (fun w => { w with hidden := false })
        if d.gameOver then
          { st with board := newBoard,
                    defeatedUnits := st.defeatedUnits ++ [d.defeatedUnitData],
                    selectedCardIndex := none, isResolvingAttack := false,
                    gameState := GamePhase.GAMEOVER }
        else
          { st with board := newBoard,
                    defeatedUnits := st.defeatedUnits ++ [d.defeatedUnitData],
                    selectedCardIndex := none, isResolvingAttack := false,
                    currentPlayer := d.nextPlayer }
      | _, _ => st
    | _, _ => st
  | _, _ => st

/-- Messages sent over the data channel by the gameplay click handler
(`sendData` calls); `attackError` stands for the `attackResult` carrying
the `{ error: true }` object of the unreachable validation-failure path. -/
inductive Msg where
  | reveal (cardId : Nat)
  | move (attackerCardId targetCardId nextPlayer : Nat)
  | attackResult (d : AttackResultData)
  | attackError
deriving DecidableEq, Repr

/-- Embedding of `handleCardClick(cardId)` for the local player `localPlayerRole`:
returns the new state and the messages sent, in order. Selection phase:
own non-empty card only, revealing it (and messaging the peer) if hidden.
Target phase: deselect on the same card; otherwise require adjacency, a
traversable entry edge and a non-own target, then either move (empty
target) or attack (reveal defender if hidden, resolve locally, send and
apply the result). -/
def handleCardClick (st : GameState) (localPlayerRole cardId : Nat) : GameState × List Msg :=
  if st.gameState ≠ GamePhase.GAMEPLAY ∨ st.isResolvingAttack then (st, [])
  else if st.currentPlayer ≠ localPlayerRole then (st, [])
  else
    match findCardIndexById st.board cardId with
    | none => (st, [])
    | some clickedCardIndex =>
      match st.board[clickedCardIndex]? with
      | none => (st, [])
      | some clickedCard =>
        match st.selectedCardIndex with
        | none =>
          if clickedCard.owner ≠ some st.currentPlayer then (st, [])
          else
            match clickedCard.unitData with
            | none => (st, [])
            | some _ =>
              if clickedCard.hidden then
                ({ st with
                    board := modifyAt st.board clickedCardIndex
                      (fun c => { c with hidden := false }),
                    selectedCardIndex := some clickedCardIndex },
                 [Msg.reveal clickedCard.id])
              else
                ({ st with selectedCardIndex := some clickedCardIndex }, [])
        | some selectedIdx =>
          if clickedCardIndex = selectedIdx then
            ({ st with selectedCardIndex := none }, [])
          else
            match st.board[selectedIdx]? with
            | none => (st, [])
            | some attackerCard =>
              match getDirectionInfo attackerCard clickedCard with
              | none => (st, [])
              | some directionInfo =>
                let entryTerrainType :=
                  oppositeEdge clickedCard.terrainData.terrainData directionInfo
                if ¬ canUnitTraverse attackerCard.unitData entryTerrainType then (st, [])
                else if clickedCard.owner = some st.currentPlayer then (st, [])
                else
                  let nextPlayer := if st.currentPlayer = 1 then 2 else 1
                  match clickedCard.unitData with
                  | none =>
                    (applyMove st attackerCard.id clickedCard.id nextPlayer,
                     [Msg.move attackerCard.id clickedCard.id nextPlayer])
                  | some _ =>
                    let stLock := { st with isResolvingAttack := true }
                    let revealed := clickedCard.hidden
                    let stRevealed :=
                      if revealed then
                        { stLock with board := (modifyAt stLock.board clickedCardIndex
                            (fun c => { c with hidden := false })) }
                      else stLock
                    let revealMsgs :=
                      if revealed then [Msg.reveal clickedCard.id] else ([] : List Msg)
                    match resolveAttackLocally stRevealed selectedIdx clickedCardIndex
                        nextPlayer with
                    | none => (stRevealed, revealMsgs ++ [Msg.attackError])
                    | some result =>
                      (applyAttackResult stRevealed result,
                       revealMsgs ++ [Msg.attackResult result])

/-- A `placement` message payload
`{ owner, unitData, terrainData, gridX, gridY, nextPlayer, cardId }`. -/
structure PlacementData where
  owner : Nat
  unitData : UnitData
  terrainData : TerrainObj
  gridX : Int
  gridY : Int
  nextPlayer : Nat
  cardId : Nat
deriving DecidableEq, Repr

/-- Embedding of `placeCard(gridX, gridY, owner, unitData, terrainDataObj, cardIdToUse)`:
appends a new hidden card to the board and its position to
`placedPositions`; uses the provided id (bumping `nextCardId` past it) or
allocates the next id. The DOM construction is rendering-only. -/
def placeCard (st : GameState) (gridX gridY : Int) (owner : Nat)
    (unitData : Option UnitData) (terrainDataObj : TerrainObj)
    (cardIdToUse : Option Nat) : GameState :=
  let cardId := match cardIdToUse with
    | some cid => cid
    | none => st.nextCardId
  let newNextCardId := match cardIdToUse with
    | none => st.nextCardId + 1
    | some cid => if cid ≥ st.nextCardId then cid + 1 else st.nextCardId
  let card : Card :=
    { id := cardId, unitData := unitData, terrainData := terrainDataObj,
      hidden := true, owner := some owner, gridX := gridX, gridY := gridY }
  { st with board := st.board ++ [card],
            placedPositions := st.placedPositions ++ [(gridX, gridY)],
            nextCardId := newNextCardId }

/-- Embedding of `applyPlacement(data)`: place the card, remove the placed unit and
terrain from the owner's pools (matched by `imagePath`), bump the pair
counter, pass the placement turn to `nextPlayer`, enter GAMEPLAY once all
16 pairs are down, and clear the placement selections. -/
def applyPlacement (st : GameState) (d : PlacementData) : GameState :=
  let st1 := placeCard st d.gridX d.gridY d.owner (some d.unitData) d.terrainData (some d.cardId)
  let st2 :=
    if d.owner = 1 then
      { st1 with
          availableUnits1 := st1.availableUnits1.filter
            (fun u => !(u.imagePath == d.unitData.imagePath)),
          availableTerrains1 := st1.availableTerrains1.filter
            (fun t => !(t.imagePath == d.terrainData.imagePath)) }
    else if d.owner = 2 then
      { st1 with
          availableUnits2 := st1.availableUnits2.filter
            (fun u => !(u.imagePath == d.unitData.imagePath)),
          availableTerrains2 := st1.availableTerrains2.filter
            (fun t => !(t.imagePath == d.terrainData.imagePath)) }
    else st1
  let st3 := { st2 with placedCardPairCount := st2.placedCardPairCount + 1,
                        currentPlayer := d.nextPlayer }
  let st4 :=
    if st3.placedCardPairCount ≥ TOTAL_CARD_PAIRS_TO_PLACE then
      { st3 with gameState := GamePhase.GAMEPLAY }
    else st3
  { st4 with selectedUnitForPlacement := none, selectedTerrainForPlacement := none }

/-- Embedding of `selectUnitForPlacement(unitData)`. -/
def selectUnitForPlacement (st : GameState) (localPlayerRole : Nat) (u : UnitData) : GameState :=
  if st.gameState ≠ GamePhase.PLACEMENT ∨ st.currentPlayer ≠ localPlayerRole then st
  else { st with selectedUnitForPlacement := some u }

/-- Embedding of `selectTerrainForPlacement(terrainDataObj)`. -/
def selectTerrainForPlacement (st : GameState) (localPlayerRole : Nat) (t : TerrainObj) :
    GameState :=
  if st.gameState ≠ GamePhase.PLACEMENT ∨ st.currentPlayer ≠ localPlayerRole then st
  else { st with selectedTerrainForPlacement := some t }

/-- Embedding of `handleBoardClickForPlacement(event)`: `clickTarget` is the grid cell
of the clicked placement placeholder (`none` when the click was not on a
placeholder). Guards: placement phase, own turn, open connection, both
selections made, target in the recomputed frontier. On success builds the
placement data (owner = current player, turn passes to the other player,
id = `nextCardId`), sends it and applies it locally; the sent payload is
returned alongside the new state. -/
def handleBoardClickForPlacement (st : GameState) (localPlayerRole : Nat)
    (connOpen : Bool) (clickTarget : Option (Int × Int)) :
    GameState × Option PlacementData :=
  if st.gameState ≠ GamePhase.PLACEMENT then (st, none)
  else if st.currentPlayer ≠ localPlayerRole then (st, none)
  else if ¬ connOpen then (st, none)
  else
    match st.selectedUnitForPlacement, st.selectedTerrainForPlacement with
    | some u, some t =>
      match clickTarget with
      | none => (st, none)
      | some pos =>
        if (potentialSpots st.placedPositions).contains pos then
          let nextPlayer := if st.currentPlayer = 1 then 2 else 1
          let d : PlacementData :=
            { owner := st.currentPlayer, unitData := u, terrainData := t,
              gridX := pos.1, gridY := pos.2, nextPlayer := nextPlayer,
              cardId := st.nextCardId }
          (applyPlacement st d, some d)
        else (st, none)
    | _, _ => (st, none)

/-- A pending pair of `generateAutoPlacements`
(`{ owner, unitData, terrainData }`); `terrainData` is `none` when the
terrain list is shorter than the unit list (JS `undefined`). -/
structure AutoPair where
  owner : Nat
  unitData : UnitData
  terrainData : Option TerrainObj
deriving DecidableEq, Repr

/-- A completed auto-placement action
`{ owner, unitData, terrainData, gridX, gridY, cardId }`. -/
structure AutoAction where
  owner : Nat
  unitData : UnitData
  terrainData : Option TerrainObj
  gridX : Int
  gridY : Int
  cardId : Nat
deriving DecidableEq, Repr

/-- Pairing `unitsData.map((unitData, i) => ({ owner, unitData, terrainData: terrainsData[i] }))`. -/
def mkAutoPairs (owner : Nat) (unitsData : List UnitData) (terrainsData : List TerrainObj) :
    List AutoPair :=
  unitsData.mapIdx (fun i u =>
    { owner := owner, unitData := u, terrainData := terrainsData[i]? })

/-- The turn loop of `generateAutoPlacements`, recursing on the number of
turns left. Per turn: current player from the turn parity, the next unseen
pair of that player (`null` result when exhausted), the legal frontier
(`null` result when empty), a random spot from it — the `Math.random`
draw is abstracted by the `pick` oracle, taken modulo the frontier size
(the frontier's list order differs from the JS `Set` insertion order,
which only re-indexes the oracle) — then the completed action and the
recursion with the spot marked occupied. -/
def autoPlaceLoop (p1Pairs p2Pairs : List AutoPair) (pick : Nat → Nat) :
    Nat → Nat → List (Int × Int) → Nat → Option (List AutoAction)
  | 0, _, _, _ => some []
  | n + 1, turn, placedPositions, currentCardId =>
    let currentPlayer := turn % 2 + 1
    let currentPairsList := if currentPlayer = 1 then p1Pairs else p2Pairs
    let pairIndex := turn / 2
    match currentPairsList[pairIndex]? with
    | none => none
    | some action =>
      let spots := potentialSpots placedPositions
      match spots[pick turn % spots.length]? with
      | none => none
      | some chosenSpot =>
        match autoPlaceLoop p1Pairs p2Pairs pick n (turn + 1)
            (placedPositions ++ [chosenSpot]) (currentCardId + 1) with
        | none => none
        | some rest =>
          some ({ owner := action.owner, unitData := action.unitData,
                  terrainData := action.terrainData, gridX := chosenSpot.1,
                  gridY := chosenSpot.2, cardId := currentCardId } :: rest)

/-- Embedding of `generateAutoPlacements(p1UnitsData, p1TerrainsData, p2UnitsData,
p2TerrainsData, startingCardId)` with the random choice abstracted by
`pick`: pair up each player's pools and simulate the 16 alternating
placement turns. -/
def generateAutoPlacements (p1UnitsData : List UnitData) (p1TerrainsData : List TerrainObj)
    (p2UnitsData : List UnitData) (p2TerrainsData : List TerrainObj)
    (startingCardId : Nat) (pick : Nat → Nat) : Option (List AutoAction) :=
  autoPlaceLoop (mkAutoPairs 1 p1UnitsData p1TerrainsData)
    (mkAutoPairs 2 p2UnitsData p2TerrainsData) pick
    TOTAL_CARD_PAIRS_TO_PLACE 0 [] startingCardId

/-- A placement-phase interaction trace of one peer, recording the owners
of the successive placement actions (local or remote). A local attempt is
a unit selection, a terrain selection and a board click processed by
`handleBoardClickForPlacement`; it contributes an owner only when a
placement is actually sent. A remote `placement` message is applied by
`applyPlacement`; the sender built it with the same
`handleBoardClickForPlacement` code, so its payload satisfies
`owner = currentPlayer` and `nextPlayer = the other player` — stated here
as side conditions on the received data. -/
inductive PlacementTrace (role : Nat) : GameState → GameState → List Nat → Prop where
  | nil (st : GameState) : PlacementTrace role st st []
  | localPlaced (st stMid stEnd : GameState) (u : UnitData) (t : TerrainObj)
      (connOpen : Bool) (click : Option (Int × Int)) (d : PlacementData)
      (owners : List Nat)
      (hclick : handleBoardClickForPlacement
        (selectTerrainForPlacement (selectUnitForPlacement st role u) role t)
        role connOpen click = (stMid, some d))
      (htail : PlacementTrace role stMid stEnd owners) :
      PlacementTrace role st stEnd (d.owner :: owners)
  | localRejected (st stMid stEnd : GameState) (u : UnitData) (t : TerrainObj)
      (connOpen : Bool) (click : Option (Int × Int)) (owners : List Nat)
      (hclick : handleBoardClickForPlacement
        (selectTerrainForPlacement (selectUnitForPlacement st role u) role t)
        role connOpen click = (stMid, none))
      (htail : PlacementTrace role stMid stEnd owners) :
      PlacementTrace role st stEnd owners
  | remotePlacement (st stEnd : GameState) (d : PlacementData) (owners : List Nat)
      (howner : d.owner = st.currentPlayer)
      (hnext : d.nextPlayer = if st.currentPlayer = 1 then 2 else 1)
      (htail : PlacementTrace role (applyPlacement st d) stEnd owners) :
      PlacementTrace role st stEnd (d.owner :: owners)

/-! ### Concrete fixtures

Units built from the `unitStats` table, terrain objects from
`fixedTerrainCards`, and small concrete game states used to evaluate the
theorems on explicit inputs. -/

/-- Unit `unit_player{owner}_mobile_command_{i}`: attack 1, defense 2, Plains only. -/
def mobileCommandUnit (owner i : Nat) : UnitData :=
  { unitName := "Mobile Command", instanceNum := i,
    stats := { attack := 1, defense := 2 },
    imagePath := "cards/unit_player" ++ toString owner ++ "_mobile_command_" ++ toString i ++ ".webp",
    canTraverse := [Terrain.Plains] }

/-- Unit `unit_player{owner}_tank_{i}`: attack 4, defense 4, Plains only. -/
def tankUnit (owner i : Nat) : UnitData :=
  { unitName := "Tank", instanceNum := i,
    stats := { attack := 4, defense := 4 },
    imagePath := "cards/unit_player" ++ toString owner ++ "_tank_" ++ toString i ++ ".webp",
    canTraverse := [Terrain.Plains] }

/-- Unit `unit_player{owner}_infantry_{i}`: attack 3, defense 3, all edge types. -/
def infantryUnit (owner i : Nat) : UnitData :=
  { unitName := "Infantry", instanceNum := i,
    stats := { attack := 3, defense := 3 },
    imagePath := "cards/unit_player" ++ toString owner ++ "_infantry_" ++ toString i ++ ".webp",
    canTraverse := [Terrain.Plains, Terrain.Forest, Terrain.Mountain] }

/-- Unit `unit_player{owner}_artillery_{i}`: attack 5, defense 1, Plains only. -/
def artilleryUnit (owner i : Nat) : UnitData :=
  { unitName := "Artillery", instanceNum := i,
    stats := { attack := 5, defense := 1 },
    imagePath := "cards/unit_player" ++ toString owner ++ "_artillery_" ++ toString i ++ ".webp",
    canTraverse := [Terrain.Plains] }

/-- Unit `unit_player{owner}_special_ops_{i}`: attack 3, defense 1, all edge types. -/
def specialOpsUnit (owner i : Nat) : UnitData :=
  { unitName := "Special Ops", instanceNum := i,
    stats := { attack := 3, defense := 1 },
    imagePath := "cards/unit_player" ++ toString owner ++ "_special_ops_" ++ toString i ++ ".webp",
    canTraverse := [Terrain.Plains, Terrain.Forest, Terrain.Mountain] }

/-- Terrain object of player `owner` for fixed layout `idx`. -/
def mkTerrainObj (owner idx : Nat) : TerrainObj :=
  { terrainIndex := idx,
    terrainData := (fixedTerrainCards[idx]?).getD
      { top := Terrain.Plains, right := Terrain.Plains,
        bottom := Terrain.Plains, left := Terrain.Plains },
    imagePath := "cards/terrain_player" ++ toString owner ++ "_layout" ++ toString idx ++ ".webp" }

/-- A player's full 8-unit pool in the `getUnitList` order. -/
def playerUnitsPool (owner : Nat) : List UnitData :=
  [mobileCommandUnit owner 1, tankUnit owner 1, tankUnit owner 2,
   infantryUnit owner 1, infantryUnit owner 2, infantryUnit owner 3,
   artilleryUnit owner 1, specialOpsUnit owner 1]

/-- A player's full 8-terrain pool in layout order. -/
def playerTerrainsPool (owner : Nat) : List TerrainObj :=
  (List.range 8).map (fun i => mkTerrainObj owner i)

/-- A game state with empty board in GAMEPLAY phase, player 1 to act. -/
def emptyGameplayState : GameState :=
  { board := [], currentPlayer := 1, placedPositions := [],
    selectedCardIndex := none, defeatedUnits := [], nextCardId := 0,
    gameState := GamePhase.GAMEPLAY, isResolvingAttack := false,
    availableUnits1 := [], availableUnits2 := [],
    availableTerrains1 := [], availableTerrains2 := [],
    placedCardPairCount := 16, selectedUnitForPlacement := none,
    selectedTerrainForPlacement := none }

/-- Placeholder card for total extraction helpers. -/
def junkCard : Card :=
  { id := 999, unitData := none, terrainData := mkTerrainObj 1 0,
    hidden := true, owner := none, gridX := 0, gridY := 0 }

/-- Placeholder attack payload for total extraction helpers. -/
def junkAttackData : AttackResultData :=
  { winnerCardId := 999, loserCardId := 999,
    defeatedUnitData := { unitData := none, terrainData := mkTerrainObj 1 0, owner := none },
    attackerMoved := false, nextPlayer := 0, gameOver := false, winMessage := "" }

/-- State for the move scenario: a revealed player-1 infantry at (10,10)
next to an empty tile at (11,10). -/
def stMove : GameState :=
  { emptyGameplayState with
      board :=
        [ { id := 0, unitData := some (infantryUnit 1 1), terrainData := mkTerrainObj 1 2,
            hidden := false, owner := some 1, gridX := 10, gridY := 10 },
          { id := 1, unitData := none, terrainData := mkTerrainObj 2 2,
            hidden := false, owner := none, gridX := 11, gridY := 10 } ],
      placedPositions := [(10, 10), (11, 10)] }

/-- State for the tie attack: player-1 Tank (attack 4) at (10,10), selected,
next to player-2 Infantry (defense 3) at (11,10) whose left edge is Forest
(layout 0), so defenseValue = 3 + 1 = 4 = attackValue. -/
def stTie : GameState :=
  { emptyGameplayState with
      board :=
        [ { id := 10, unitData := some (tankUnit 1 1), terrainData := mkTerrainObj 1 2,
            hidden := false, owner := some 1, gridX := 10, gridY := 10 },
          { id := 11, unitData := some (infantryUnit 2 1), terrainData := mkTerrainObj 2 0,
            hidden := false, owner := some 2, gridX := 11, gridY := 10 } ],
      placedPositions := [(10, 10), (11, 10)],
      selectedCardIndex := some 0 }

/-- The locally computed outcome of the tie attack. -/
def tieOutcome : AttackResultData :=
  match resolveAttackLocally stTie 0 1 2 with
  | some d => d
  | none => junkAttackData

/-- The card left at index 0 after applying the tie outcome. -/
def tiePostCard0 : Card :=
  match (applyAttackResult stTie tieOutcome).board[0]? with
  | some c => c
  | none => junkCard

/-- State for the command capture: player-1 Tank at (10,10) next to the
player-2 Mobile Command (defense 2) at (11,10) whose left edge is Plains
(layout 2). -/
def stCommand : GameState :=
  { emptyGameplayState with
      board :=
        [ { id := 20, unitData := some (tankUnit 1 1), terrainData := mkTerrainObj 1 2,
            hidden := false, owner := some 1, gridX := 10, gridY := 10 },
          { id := 21, unitData := some (mobileCommandUnit 2 1), terrainData := mkTerrainObj 2 2,
            hidden := false, owner := some 2, gridX := 11, gridY := 10 } ],
      placedPositions := [(10, 10), (11, 10)],
      selectedCardIndex := some 0 }

/-- The locally computed outcome of the command capture. -/
def commandOutcome : AttackResultData :=
  match resolveAttackLocally stCommand 0 1 2 with
  | some d => d
  | none => junkAttackData

/-- State for the elimination win: player-1 Tank at (10,10), player-2
Infantry at (11,10) (left edge Plains, layout 2) — player 2's only
non-command unit — and the player-2 Mobile Command at (12,10). -/
def stElim : GameState :=
  { emptyGameplayState with
      board :=
        [ { id := 30, unitData := some (tankUnit 1 1), terrainData := mkTerrainObj 1 2,
            hidden := false, owner := some 1, gridX := 10, gridY := 10 },
          { id := 31, unitData := some (infantryUnit 2 1), terrainData := mkTerrainObj 2 2,
            hidden := false, owner := some 2, gridX := 11, gridY := 10 },
          { id := 32, unitData := some (mobileCommandUnit 2 1), terrainData := mkTerrainObj 2 3,
            hidden := true, owner := some 2, gridX := 12, gridY := 10 } ],
      placedPositions := [(10, 10), (11, 10), (12, 10)],
      selectedCardIndex := some 0 }

/-- The locally computed outcome of the elimination attack. -/
def elimOutcome : AttackResultData :=
  match resolveAttackLocally stElim 0 1 2 with
  | some d => d
  | none => junkAttackData

/-- State for the terrain-blocked click: player-1 Tank at (10,10) is
selected; the adjacent enemy tile at (11,10) has a Forest left edge
(layout 0), which a Tank cannot traverse. -/
def stBlocked : GameState :=
  { emptyGameplayState with
      board :=
        [ { id := 10, unitData := some (tankUnit 1 1), terrainData := mkTerrainObj 1 2,
            hidden := false, owner := some 1, gridX := 10, gridY := 10 },
          { id := 11, unitData := some (infantryUnit 2 1), terrainData := mkTerrainObj 2 0,
            hidden := true, owner := some 2, gridX := 11, gridY := 10 } ],
      placedPositions := [(10, 10), (11, 10)],
      selectedCardIndex := some 0 }

/-- The auto-placement run on the canonical pools with the all-zeros
random oracle. -/
def autoActions0 : List AutoAction :=
  match generateAutoPlacements (playerUnitsPool 1) (playerTerrainsPool 1)
      (playerUnitsPool 2) (playerTerrainsPool 2) 0 (fun _ => 0) with
  | some acts => acts
  | none => []

end Fogline

namespace Fogline

lemma contains_iff_mem {α : Type} [BEq α] [LawfulBEq α] (l : List α) (a : α) :
    l.contains a = true ↔ a ∈ l := by
  simp [List.contains, List.elem_eq_mem]

lemma mem_neighborSpots (p q : Int × Int) : q ∈ neighborSpots p ↔ orthAdjacent p q := by
  cases p with
  | mk px py =>
    cases q with
    | mk qx qy =>
      simp [neighborSpots, orthAdjacent, Prod.ext_iff, and_comm]

/-- Membership in the non-empty-board frontier. -/
lemma mem_potentialSpots (occ : List (Int × Int)) (p : Int × Int) (hne : occ ≠ []) :
    p ∈ potentialSpots occ ↔ (∃ q ∈ occ, orthAdjacent q p) ∧ p ∉ occ := by
  have hocc : occ.isEmpty = false := by
    cases occ with
    | nil => exact absurd rfl hne
    | cons a l => rfl
  simp only [potentialSpots, hocc, Bool.false_eq_true, if_false, List.mem_filter,
    List.mem_flatMap, mem_neighborSpots, Bool.not_eq_true', List.contains,
    List.elem_eq_mem, decide_eq_false_iff_not]

/-- C4. Placement frontier correctness: on an empty board the frontier is
exactly the fixed origin `(10, 10)`; on a non-empty board it is exactly
the set of unoccupied orthogonal neighbours of occupied positions; it
never contains an occupied position, and whenever the board is non-empty
every spot is orthogonally adjacent to some occupied position (so no
diagonal-only neighbour ever appears). -/
theorem placement_frontier_correct (occ : List (Int × Int)) (p : Int × Int) :
    (occ = [] → (p ∈ potentialSpots occ ↔ p = (START_GRID_COORD, START_GRID_COORD))) ∧
    (occ ≠ [] → (p ∈ potentialSpots occ ↔ (∃ q ∈ occ, orthAdjacent q p) ∧ p ∉ occ)) ∧
    (p ∈ potentialSpots occ → p ∉ occ) ∧
    (occ ≠ [] → p ∈ potentialSpots occ → ∃ q ∈ occ, orthAdjacent q p) := by
  refine ⟨?_, fun hne => mem_potentialSpots occ p hne, ?_, ?_⟩
  · rintro rfl
    simp [potentialSpots]
  · intro hp
    by_cases hocc : occ = []
    · subst hocc; simp
    · exact ((mem_potentialSpots occ p hocc).mp hp).2
  · intro hne hp
    exact ((mem_potentialSpots occ p hne).mp hp).1

/-- Witness for C4 at a concrete input: with only `(10, 10)` occupied,
`(11, 10)` is a legal spot and `(10, 10)` itself is not. -/
theorem placement_frontier_correct_witness :
    (11, 10) ∈ potentialSpots [((10 : Int), (10 : Int))] ∧
    ((10 : Int), (10 : Int)) ∉ potentialSpots [((10 : Int), (10 : Int))] := by
  constructor
  · exact ((placement_frontier_correct [((10 : Int), (10 : Int))] (11, 10)).2.1
      (by decide)).mpr (by refine ⟨⟨(10, 10), ?_, ?_⟩, ?_⟩ <;> decide)
  · intro hmem
    exact absurd ((placement_frontier_correct [((10 : Int), (10 : Int))] (10, 10)).2.2.1 hmem)
      (by decide)

/-! ### Helper lemmas about the embedding primitives -/

lemma length_modifyAt {α : Type} (l : List α) (i : Nat) (f : α → α) :
    (modifyAt l i f).length = l.length := by
  induction l generalizing i with
  | nil => rfl
  | cons a as ih =>
    cases i with
    | zero => rfl
    | succ n => simp [modifyAt, ih]

lemma getElem?_modifyAt {α : Type} (l : List α) (i j : Nat) (f : α → α) :
    (modifyAt l i f)[j]? = if j = i then (l[j]?).map f else l[j]? := by
  induction l generalizing i j with
  | nil => simp [modifyAt]
  | cons a as ih =>
    cases i with
    | zero =>
      cases j with
      | zero => simp [modifyAt]
      | succ m => simp [modifyAt]
    | succ n =>
      cases j with
      | zero => simp [modifyAt]
      | succ m => simpa [modifyAt] using ih n m

lemma findCardIndexById_some {board : List Card} {cardId i : Nat}
    (h : findCardIndexById board cardId = some i) :
    ∃ c, board[i]? = some c ∧ c.id = cardId := by
  induction board generalizing i with
  | nil => simp [findCardIndexById] at h
  | cons b bs ih =>
    by_cases hb : b.id = cardId
    · simp only [findCardIndexById, hb, if_true, Option.some.injEq] at h
      subst h
      exact ⟨b, by simp, hb⟩
    · simp only [findCardIndexById, hb, if_false] at h
      cases hf : findCardIndexById bs cardId with
      | none => rw [hf] at h; simp at h
      | some j =>
        rw [hf] at h
        simp only [Option.map_some', Option.some.injEq] at h
        subst h
        obtain ⟨c, hc, hcid⟩ := ih hf
        exact ⟨c, by simpa using hc, hcid⟩

lemma findCardIndexById_nodup {board : List Card}
    (hn : (board.map Card.id).Nodup) {k : Nat} {c : Card}
    (hk : board[k]? = some c) : findCardIndexById board c.id = some k := by
  induction board generalizing k with
  | nil => simp at hk
  | cons b bs ih =>
    rw [List.map_cons, List.nodup_cons] at hn
    cases k with
    | zero =>
      simp only [List.getElem?_cons_zero, Option.some.injEq] at hk
      subst hk
      simp [findCardIndexById]
    | succ k' =>
      simp only [List.getElem?_cons_succ] at hk
      have hmem : c ∈ bs := List.getElem?_mem hk
      have hbne : ¬ (b.id = c.id) := by
        intro he
        exact hn.1 (he ▸ List.mem_map_of_mem Card.id hmem)
      simp [findCardIndexById, hbne, ih hn.2 hk]

lemma getElem?_ne_id {board : List Card} (hn : (board.map Card.id).Nodup)
    {j li : Nat} {c L : Card} (hj : board[j]? = some c) (hL : board[li]? = some L)
    (hne : j ≠ li) : c.id ≠ L.id := by
  intro he
  have h1 := findCardIndexById_nodup hn hj
  have h2 := findCardIndexById_nodup hn hL
  rw [he] at h1
  rw [h1] at h2
  exact hne (Option.some.inj h2)

lemma getDirectionInfo_ne {c1 c2 : Card} {dir : Dir}
    (h : getDirectionInfo c1 c2 = some dir) : c1 ≠ c2 := by
  intro he
  subst he
  simp [getDirectionInfo] at h

lemma resolveAttackLocally_eq {st : GameState} {ai di np : Nat}
    {aC dC : Card} {aU dU : UnitData} {dir : Dir}
    (ha : st.board[ai]? = some aC) (hd : st.board[di]? = some dC)
    (hau : aC.unitData = some aU) (hdu : dC.unitData = some dU)
    (hdir : getDirectionInfo aC dC = some dir) :
    resolveAttackLocally st ai di np =
      some (mkAttackOutcome st.board st.currentPlayer aC dC aU dU dir np) := by
  simp [resolveAttackLocally, ha, hd, hau, hdu, hdir]

/-! ### C10: unknown-id messages leave the state unchanged -/

/-- C10. Applying a `reveal`, `move` or `attackResult` message whose card
id (either referenced id) is not on the local board returns without any
change to the state (board, defeated-units list, current player, phase
included). -/
theorem unknown_id_messages_noop (st : GameState) (cardId a t np : Nat)
    (d : AttackResultData) :
    (findCardIndexById st.board cardId = none → applyReveal st cardId = st) ∧
    (findCardIndexById st.board a = none ∨ findCardIndexById st.board t = none →
      applyMove st a t np = st) ∧
    (findCardIndexById st.board d.winnerCardId = none ∨
        findCardIndexById st.board d.loserCardId = none →
      applyAttackResult st d = st) := by
  refine ⟨?_, ?_, ?_⟩
  · intro h
    simp [applyReveal, h]
  · rintro (h | h)
    · simp [applyMove, h]
    · cases hfa : findCardIndexById st.board a <;> simp [applyMove, hfa, h]
  · rintro (h | h)
    · simp [applyAttackResult, h]
    · cases hfw : findCardIndexById st.board d.winnerCardId <;>
        simp [applyAttackResult, hfw, h]

/-- Witness for C10: on the two-card tie board (ids 10 and 11), messages
referencing the absent id 99 (and the junk payload's id 999) change
nothing. -/
theorem unknown_id_messages_noop_witness :
    applyReveal stTie 99 = stTie ∧ applyMove stTie 99 11 2 = stTie ∧
    applyAttackResult stTie junkAttackData = stTie :=
  ⟨(unknown_id_messages_noop stTie 99 99 11 2 junkAttackData).1 rfl,
   (unknown_id_messages_noop stTie 99 99 11 2 junkAttackData).2.1 (Or.inl rfl),
   (unknown_id_messages_noop stTie 99 99 11 2 junkAttackData).2.2 (Or.inl rfl)⟩

/-! ### C1: reveal monotonicity -/

/-- C1 counterexample. The claim "once a tile's revealed flag is true,
no subsequent operation ever sets it back to false; in particular, after
a Move the origin tile's revealed flag stays true" is false on the code:
on `stMove` the origin tile (index 0) is revealed (`hidden = false`)
before the move, and `applyMove` sets its `hidden` flag back to `true`. -/
theorem reveal_monotonicity_counterexample :
    (stMove.board[0]?.map Card.hidden) = some false ∧
    ((applyMove stMove 0 1 2).board[0]?.map Card.hidden) = some true := by
  exact ⟨rfl, rfl⟩

/-- C1 amended. Reveal monotonicity holds except on tiles the operation
empties: `applyReveal` never re-hides a revealed tile, and whenever
`applyMove` or `applyAttackResult` flips a tile's `hidden` flag from
false back to true, that tile's unit and owner have been cleared (the
move origin, the winning attacker's origin, or the defeated attacker's
tile); every tile still holding a unit keeps its revealed flag. -/
theorem reveal_monotonicity_amended (st : GameState) (cid a t np : Nat)
    (d : AttackResultData) :
    (∀ (k : Nat) (c c' : Card), st.board[k]? = some c →
      (applyReveal st cid).board[k]? = some c' →
      c.hidden = false → c'.hidden = false) ∧
    (∀ (k : Nat) (c c' : Card), st.board[k]? = some c →
      (applyMove st a t np).board[k]? = some c' →
      c.hidden = false → c'.hidden = true → c'.unitData = none ∧ c'.owner = none) ∧
    (∀ (k : Nat) (c c' : Card), st.board[k]? = some c →
      (applyAttackResult st d).board[k]? = some c' →
      c.hidden = false → c'.hidden = true → c'.unitData = none ∧ c'.owner = none) := by
  refine ⟨?_, ?_, ?_⟩
  · intro k c c' hk hk' hh
    unfold applyReveal at hk'
    cases hf : findCardIndexById st.board cid with
    | none =>
      simp only [hf] at hk'
      rw [hk] at hk'
      cases hk'
      exact hh
    | some i =>
      simp only [hf] at hk'
      cases hi : st.board[i]? with
      | none =>
        simp only [hi] at hk'
        rw [hk] at hk'
        cases hk'
        exact hh
      | some card =>
        simp only [hi] at hk'
        by_cases hch : card.hidden
        · simp only [hch, if_true] at hk'
          rw [getElem?_modifyAt] at hk'
          by_cases hki : k = i
          · rw [if_pos hki, hk] at hk'
            simp only [Option.map_some', Option.some.injEq] at hk'
            subst hk'
            rfl
          · rw [if_neg hki, hk] at hk'
            cases hk'
            exact hh
        · simp only [hch, Bool.false_eq_true, if_false] at hk'
          rw [hk] at hk'
          cases hk'
          exact hh
  · intro k c c' hk hk' hh hh'
    unfold applyMove at hk'
    cases hfa : findCardIndexById st.board a with
    | none =>
      simp only [hfa] at hk'
      rw [hk] at hk'
      cases hk'
      rw [hh] at hh'
      cases hh'
    | some ai =>
      simp only [hfa] at hk'
      cases hft : findCardIndexById st.board t with
      | none =>
        simp only [hft] at hk'
        rw [hk] at hk'
        cases hk'
        rw [hh] at hh'
        cases hh'
      | some ti =>
        simp only [hft] at hk'
        cases hA : st.board[ai]? with
        | none =>
          simp only [hA] at hk'
          rw [hk] at hk'
          cases hk'
          rw [hh] at hh'
          cases hh'
        | some A =>
          simp only [hA] at hk'
          cases hT : st.board[ti]? with
          | none =>
            simp only [hT] at hk'
            rw [hk] at hk'
            cases hk'
            rw [hh] at hh'
            cases hh'
          | some T =>
            simp only [hT] at hk'
            cases hdir : getDirectionInfo A T with
            | none =>
              simp only [hdir] at hk'
              rw [hk] at hk'
              cases hk'
              rw [hh] at hh'
              cases hh'
            | some dir =>
              simp only [hdir] at hk'
              cases hAu : A.unitData with
              | none =>
                simp only [hAu] at hk'
                rw [hk] at hk'
                cases hk'
                rw [hh] at hh'
                cases hh'
              | some Au =>
                simp only [hAu] at hk'
                rw [getElem?_modifyAt] at hk'
                by_cases hkai : k = ai
                · rw [if_pos hkai, getElem?_modifyAt] at hk'
                  by_cases hkti : k = ti
                  · rw [if_pos hkti, hk] at hk'
                    simp only [Option.map_some', Option.map_map, Option.some.injEq,
                      Function.comp] at hk'
                    subst hk'
                    exact ⟨rfl, rfl⟩
                  · rw [if_neg hkti, hk] at hk'
                    simp only [Option.map_some', Option.some.injEq] at hk'
                    subst hk'
                    exact ⟨rfl, rfl⟩
                · rw [if_neg hkai, getElem?_modifyAt] at hk'
                  by_cases hkti : k = ti
                  · rw [if_pos hkti, hk] at hk'
                    simp only [Option.map_some', Option.some.injEq] at hk'
                    subst hk'
                    cases hh'
                  · rw [if_neg hkti, hk] at hk'
                    cases hk'
                    rw [hh] at hh'
                    cases hh'
  · intro k c c' hk hk' hh hh'
    unfold applyAttackResult at hk'
    cases hfw : findCardIndexById st.board d.winnerCardId with
    | none =>
      simp only [hfw] at hk'
      rw [hk] at hk'
      cases hk'
      rw [hh] at hh'
      cases hh'
    | some wi =>
      simp only [hfw] at hk'
      cases hfl : findCardIndexById st.board d.loserCardId with
      | none =>
        simp only [hfl] at hk'
        rw [hk] at hk'
        cases hk'
        rw [hh] at hh'
        cases hh'
      | some li =>
        simp only [hfl] at hk'
        cases hW : st.board[wi]? with
        | none =>
          simp only [hW] at hk'
          rw [hk] at hk'
          cases hk'
          rw [hh] at hh'
          cases hh'
        | some W =>
          simp only [hW] at hk'
          cases hL : st.board[li]? with
          | none =>
            simp only [hL] at hk'
            rw [hk] at hk'
            cases hk'
            rw [hh] at hh'
            cases hh'
          | some L =>
            simp only [hL] at hk'
            cases hWu : W.unitData with
            | none =>
              simp only [hWu] at hk'
              rw [hk] at hk'
              cases hk'
              rw [hh] at hh'
              cases hh'
            | some Wu =>
              simp only [hWu] at hk'
              cases hLu : L.unitData with
              | none =>
                simp only [hLu] at hk'
                rw [hk] at hk'
                cases hk'
                rw [hh] at hh'
                cases hh'
              | some Lu =>
                simp only [hLu] at hk'
                by_cases ham : d.attackerMoved
                · simp only [ham, if_true] at hk'
                  by_cases hgo : d.gameOver <;>
                    [simp only [hgo, if_true] at hk';
                     simp only [hgo, Bool.false_eq_true, if_false] at hk'] <;>
                  · rw [getElem?_modifyAt] at hk'
                    by_cases hkwi : k = wi
                    · rw [if_pos hkwi, getElem?_modifyAt] at hk'
                      by_cases hkli : k = li
                      · rw [if_pos hkli, hk] at hk'
                        simp only [Option.map_some', Option.map_map, Option.some.injEq,
                          Function.comp] at hk'
                        subst hk'
                        exact ⟨rfl, rfl⟩
                      · rw [if_neg hkli, hk] at hk'
                        simp only [Option.map_some', Option.some.injEq] at hk'
                        subst hk'
                        exact ⟨rfl, rfl⟩
                    · rw [if_neg hkwi, getElem?_modifyAt] at hk'
                      by_cases hkli : k = li
                      · rw [if_pos hkli, hk] at hk'
                        simp only [Option.map_some', Option.some.injEq] at hk'
                        subst hk'
                        cases hh'
                      · rw [if_neg hkli, hk] at hk'
                        cases hk'
                        rw [hh] at hh'
                        cases hh'
                · simp only [ham, Bool.false_eq_true, if_false] at hk'
                  by_cases hgo : d.gameOver <;>
                    [simp only [hgo, if_true] at hk';
                     simp only [hgo, Bool.false_eq_true, if_false] at hk'] <;>
                  · rw [getElem?_modifyAt] at hk'
                    by_cases hkwi : k = wi
                    · rw [if_pos hkwi, getElem?_modifyAt] at hk'
                      by_cases hkli : k = li
                      · rw [if_pos hkli, hk] at hk'
                        simp only [Option.map_some', Option.map_map, Option.some.injEq,
                          Function.comp] at hk'
                        subst hk'
                        cases hh'
                      · rw [if_neg hkli, hk] at hk'
                        simp only [Option.map_some', Option.some.injEq] at hk'
                        subst hk'
                        cases hh'
                    · rw [if_neg hkwi, getElem?_modifyAt] at hk'
                      by_cases hkli : k = li
                      · rw [if_pos hkli, hk] at hk'
                        simp only [Option.map_some', Option.some.injEq] at hk'
                        subst hk'
                        exact ⟨rfl, rfl⟩
                      · rw [if_neg hkli, hk] at hk'
                        cases hk'
                        rw [hh] at hh'
                        cases hh'

/-! ### C2: tie-break determinism -/

/-- C2. In every locally resolved attack, the attacker wins (moves into
the defender's tile, `attackerMoved`) iff its unit's attack stat strictly
exceeds the defender's defense stat plus the entry edge's bonus; on
equality the defender wins; and the bonus is 1 for Forest, 0 for Plains
and Mountain. -/
theorem tie_break_determinism (st : GameState) (ai di np : Nat)
    (aC dC : Card) (aU dU : UnitData) (dir : Dir) (d : AttackResultData)
    (ha : st.board[ai]? = some aC) (hd : st.board[di]? = some dC)
    (hau : aC.unitData = some aU) (hdu : dC.unitData = some dU)
    (hdir : getDirectionInfo aC dC = some dir)
    (hres : resolveAttackLocally st ai di np = some d) :
    (d.attackerMoved = true ↔
      aU.stats.attack >
        dU.stats.defense + terrainRules (oppositeEdge dC.terrainData.terrainData dir)) ∧
    (aU.stats.attack =
        dU.stats.defense + terrainRules (oppositeEdge dC.terrainData.terrainData dir) →
      d.attackerMoved = false ∧ d.winnerCardId = dC.id ∧ d.loserCardId = aC.id) ∧
    (d.attackerMoved = true → d.winnerCardId = aC.id ∧ d.loserCardId = dC.id) ∧
    (d.attackerMoved = false → d.winnerCardId = dC.id ∧ d.loserCardId = aC.id) ∧
    terrainRules Terrain.Forest = 1 ∧ terrainRules Terrain.Plains = 0 ∧
    terrainRules Terrain.Mountain = 0 := by
  rw [resolveAttackLocally_eq ha hd hau hdu hdir] at hres
  replace hres := Option.some.inj hres
  subst hres
  by_cases haw : aU.stats.attack >
      dU.stats.defense + terrainRules (oppositeEdge dC.terrainData.terrainData dir)
  · refine ⟨by simp [mkAttackOutcome, haw], ?_, ?_, ?_, rfl, rfl, rfl⟩
    · intro heq
      rw [heq] at haw
      exact absurd haw (lt_irrefl _)
    · intro _
      exact ⟨by simp [mkAttackOutcome, haw], by simp [mkAttackOutcome, haw]⟩
    · intro hm
      simp [mkAttackOutcome, haw] at hm
  · refine ⟨by simp [mkAttackOutcome, haw], ?_, ?_, ?_, rfl, rfl, rfl⟩
    · intro _
      exact ⟨by simp [mkAttackOutcome, haw], by simp [mkAttackOutcome, haw],
        by simp [mkAttackOutcome, haw]⟩
    · intro hm
      simp [mkAttackOutcome, haw] at hm
    · intro _
      exact ⟨by simp [mkAttackOutcome, haw], by simp [mkAttackOutcome, haw]⟩

/-- Witness for C2: the Tank-vs-Infantry attack across a Forest edge of
`stTie` is a tie (4 = 3 + 1), so the defender (card 11) wins. -/
theorem tie_break_determinism_witness :
    tieOutcome.attackerMoved = false ∧ tieOutcome.winnerCardId = 11 ∧
    tieOutcome.loserCardId = 10 :=
  (tie_break_determinism stTie 0 1 2
      { id := 10, unitData := some (tankUnit 1 1), terrainData := mkTerrainObj 1 2,
        hidden := false, owner := some 1, gridX := 10, gridY := 10 }
      { id := 11, unitData := some (infantryUnit 2 1), terrainData := mkTerrainObj 2 0,
        hidden := false, owner := some 2, gridX := 11, gridY := 10 }
      (tankUnit 1 1) (infantryUnit 2 1) Dir.right tieOutcome
      rfl rfl rfl rfl rfl rfl).2.1 (by decide)

/-! ### C7: win by capture of the Mobile Command -/

/-- C7. Whenever the defeated unit of a locally resolved attack is the
Mobile Command, the outcome is game over in favour of the winning owner
(winner card and win message), with the turn left with the acting player
— with no condition on how many units either player still has. -/
theorem win_by_command_capture (st : GameState) (ai di np : Nat)
    (aC dC : Card) (aU dU : UnitData) (dir : Dir) (d : AttackResultData)
    (ha : st.board[ai]? = some aC) (hd : st.board[di]? = some dC)
    (hau : aC.unitData = some aU) (hdu : dC.unitData = some dU)
    (hdir : getDirectionInfo aC dC = some dir)
    (hres : resolveAttackLocally st ai di np = some d)
    (lu : UnitData) (hlu : d.defeatedUnitData.unitData = some lu)
    (hMC : lu.unitName = commandUnitName) :
    d.gameOver = true ∧ d.nextPlayer = st.currentPlayer ∧
    (d.attackerMoved = true →
      d.winnerCardId = aC.id ∧
      d.winMessage = "Player " ++ ownerStr aC.owner ++
        " wins by capturing the Mobile Command!") ∧
    (d.attackerMoved = false →
      d.winnerCardId = dC.id ∧
      d.winMessage = "Player " ++ ownerStr dC.owner ++
        " wins by capturing the Mobile Command!") := by
  rw [resolveAttackLocally_eq ha hd hau hdu hdir] at hres
  replace hres := Option.some.inj hres
  subst hres
  by_cases haw : aU.stats.attack >
      dU.stats.defense + terrainRules (oppositeEdge dC.terrainData.terrainData dir)
  · have hluEq : lu = dU := by
      simp [mkAttackOutcome, haw, hdu] at hlu
      exact hlu.symm
    subst hluEq
    have hcmd : (lu.unitName == commandUnitName) = true := by
      simp [hMC]
    refine ⟨by simp [mkAttackOutcome, haw, hcmd], by simp [mkAttackOutcome, haw, hcmd],
      ?_, ?_⟩
    · intro _
      exact ⟨by simp [mkAttackOutcome, haw], by simp [mkAttackOutcome, haw, hcmd]⟩
    · intro hm
      simp [mkAttackOutcome, haw] at hm
  · have hluEq : lu = aU := by
      simp [mkAttackOutcome, haw, hau] at hlu
      exact hlu.symm
    subst hluEq
    have hcmd : (lu.unitName == commandUnitName) = true := by
      simp [hMC]
    refine ⟨by simp [mkAttackOutcome, haw, hcmd], by simp [mkAttackOutcome, haw, hcmd],
      ?_, ?_⟩
    · intro hm
      simp [mkAttackOutcome, haw] at hm
    · intro _
      exact ⟨by simp [mkAttackOutcome, haw], by simp [mkAttackOutcome, haw, hcmd]⟩

/-- Witness for C7: capturing the player-2 Mobile Command on `stCommand`
ends the game in favour of player 1 with the turn unswitched. -/
theorem win_by_command_capture_witness :
    commandOutcome.gameOver = true ∧ commandOutcome.nextPlayer = 1 ∧
    commandOutcome.winnerCardId = 20 ∧
    commandOutcome.winMessage = "Player 1 wins by capturing the Mobile Command!" := by
  have h := win_by_command_capture stCommand 0 1 2
      { id := 20, unitData := some (tankUnit 1 1), terrainData := mkTerrainObj 1 2,
        hidden := false, owner := some 1, gridX := 10, gridY := 10 }
      { id := 21, unitData := some (mobileCommandUnit 2 1), terrainData := mkTerrainObj 2 2,
        hidden := false, owner := some 2, gridX := 11, gridY := 10 }
      (tankUnit 1 1) (mobileCommandUnit 2 1) Dir.right commandOutcome
      rfl rfl rfl rfl rfl rfl (mobileCommandUnit 2 1) rfl rfl
  refine ⟨h.1, h.2.1, ?_, ?_⟩
  · exact (h.2.2.1 rfl).1
  · exact (h.2.2.1 rfl).2

/-! ### C9: turn passing after attack resolution -/

lemma applyAttackResult_turn {st : GameState} {d : AttackResultData} {wi li : Nat}
    {W L : Card} {Wu Lu : UnitData}
    (hfw : findCardIndexById st.board d.winnerCardId = some wi)
    (hfl : findCardIndexById st.board d.loserCardId = some li)
    (hW : st.board[wi]? = some W) (hL : st.board[li]? = some L)
    (hWu : W.unitData = some Wu) (hLu : L.unitData = some Lu) :
    (applyAttackResult st d).currentPlayer =
      (if d.gameOver then st.currentPlayer else d.nextPlayer) ∧
    (applyAttackResult st d).gameState =
      (if d.gameOver then GamePhase.GAMEOVER else st.gameState) := by
  unfold applyAttackResult
  simp only [hfw, hfl, hW, hL, hWu, hLu]
  by_cases hgo : d.gameOver
  · simp [hgo]
  · simp [hgo]

/-- C9. After a locally resolved attack is applied: when the outcome is
not game over, the current player becomes the other (non-acting) player
— whether the attacker won or lost — and the phase is unchanged; when
the outcome is game over, the payload's `nextPlayer` is the acting player,
the current player is not switched and the phase becomes GAMEOVER. -/
theorem turn_passing_after_attack (st : GameState) (ai di np : Nat)
    (aC dC : Card) (aU dU : UnitData) (dir : Dir) (d : AttackResultData)
    (hnodup : (st.board.map Card.id).Nodup)
    (ha : st.board[ai]? = some aC) (hd : st.board[di]? = some dC)
    (hau : aC.unitData = some aU) (hdu : dC.unitData = some dU)
    (hdir : getDirectionInfo aC dC = some dir)
    (hres : resolveAttackLocally st ai di np = some d)
    (hnp : np = if st.currentPlayer = 1 then 2 else 1) :
    (d.gameOver = false →
      d.nextPlayer = np ∧
      (applyAttackResult st d).currentPlayer = np ∧
      (applyAttackResult st d).gameState = st.gameState) ∧
    (d.gameOver = true →
      d.nextPlayer = st.currentPlayer ∧
      (applyAttackResult st d).currentPlayer = st.currentPlayer ∧
      (applyAttackResult st d).gameState = GamePhase.GAMEOVER) := by
  rw [resolveAttackLocally_eq ha hd hau hdu hdir] at hres
  replace hres := Option.some.inj hres
  have hnpd : d.nextPlayer = if d.gameOver then st.currentPlayer else np := by
    rw [← hres]
    rfl
  have hturn : (applyAttackResult st d).currentPlayer =
      (if d.gameOver then st.currentPlayer else d.nextPlayer) ∧
      (applyAttackResult st d).gameState =
      (if d.gameOver then GamePhase.GAMEOVER else st.gameState) := by
    by_cases haw : aU.stats.attack >
        dU.stats.defense + terrainRules (oppositeEdge dC.terrainData.terrainData dir)
    · have hwid : d.winnerCardId = aC.id := by rw [← hres]; simp [mkAttackOutcome, haw]
      have hlid : d.loserCardId = dC.id := by rw [← hres]; simp [mkAttackOutcome, haw]
      exact applyAttackResult_turn (hwid ▸ findCardIndexById_nodup hnodup ha)
        (hlid ▸ findCardIndexById_nodup hnodup hd) ha hd hau hdu
    · have hwid : d.winnerCardId = dC.id := by rw [← hres]; simp [mkAttackOutcome, haw]
      have hlid : d.loserCardId = aC.id := by rw [← hres]; simp [mkAttackOutcome, haw]
      exact applyAttackResult_turn (hwid ▸ findCardIndexById_nodup hnodup hd)
        (hlid ▸ findCardIndexById_nodup hnodup ha) hd ha hdu hau
  constructor
  · intro hgo
    rw [hgo] at hnpd hturn
    simp only [Bool.false_eq_true, if_false] at hnpd hturn
    exact ⟨hnpd, hnpd ▸ hturn.1, hturn.2⟩
  · intro hgo
    rw [hgo] at hnpd hturn
    simp only [if_true] at hnpd hturn
    exact ⟨hnpd, hturn.1, hturn.2⟩

/-- Witness for C9: the tie attack on `stTie` is not game over; the acting
player is 1, and after applying the outcome the turn is player 2's, with
the phase unchanged. -/
theorem turn_passing_after_attack_witness :
    tieOutcome.nextPlayer = 2 ∧
    (applyAttackResult stTie tieOutcome).currentPlayer = 2 ∧
    (applyAttackResult stTie tieOutcome).gameState = stTie.gameState :=
  (turn_passing_after_attack stTie 0 1 2
      { id := 10, unitData := some (tankUnit 1 1), terrainData := mkTerrainObj 1 2,
        hidden := false, owner := some 1, gridX := 10, gridY := 10 }
      { id := 11, unitData := some (infantryUnit 2 1), terrainData := mkTerrainObj 2 0,
        hidden := false, owner := some 2, gridX := 11, gridY := 10 }
      (tankUnit 1 1) (infantryUnit 2 1) Dir.right tieOutcome
      (by decide) rfl rfl rfl rfl rfl rfl rfl).1 rfl

/-! ### C6: terrain gating rejects without mutation or messages -/

/-- C6. A gameplay target click whose entry edge the selected unit cannot
traverse is rejected: the whole state (board, selection, turn, phase, all
of it) is returned unchanged and no message is sent to the peer. -/
theorem terrain_gating_no_mutation (st : GameState) (role cardId ci si : Nat)
    (clicked attacker : Card) (dir : Dir)
    (hphase : st.gameState = GamePhase.GAMEPLAY)
    (hlock : st.isResolvingAttack = false)
    (hturn : st.currentPlayer = role)
    (hfind : findCardIndexById st.board cardId = some ci)
    (hclicked : st.board[ci]? = some clicked)
    (hsel : st.selectedCardIndex = some si)
    (hne : ci ≠ si)
    (hatt : st.board[si]? = some attacker)
    (hdir : getDirectionInfo attacker clicked = some dir)
    (hblock : canUnitTraverse attacker.unitData
      (oppositeEdge clicked.terrainData.terrainData dir) = false) :
    handleCardClick st role cardId = (st, []) := by
  unfold handleCardClick
  simp [hphase, hlock, hturn, hfind, hclicked, hsel, hne, hatt, hdir, hblock]

/-- Witness for C6: on `stBlocked` the selected player-1 Tank targets the
adjacent enemy tile across its Forest edge; the click is rejected with no
state change and no message. -/
theorem terrain_gating_no_mutation_witness :
    handleCardClick stBlocked 1 11 = (stBlocked, []) :=
  terrain_gating_no_mutation stBlocked 1 11 1 0
    { id := 11, unitData := some (infantryUnit 2 1), terrainData := mkTerrainObj 2 0,
      hidden := true, owner := some 2, gridX := 11, gridY := 10 }
    { id := 10, unitData := some (tankUnit 1 1), terrainData := mkTerrainObj 1 2,
      hidden := false, owner := some 1, gridX := 10, gridY := 10 }
    Dir.right rfl rfl rfl rfl rfl rfl (by decide) rfl rfl rfl

/-! ### C3: peer convergence for attack results -/

lemma applyAttackResult_board_congr {st1 st2 : GameState}
    (hb : st1.board = st2.board) (d : AttackResultData) :
    (applyAttackResult st1 d).board = (applyAttackResult st2 d).board := by
  obtain ⟨b1, cp1, pp1, sel1, du1, nc1, gs1, ir1, au11, au21, at11, at21, pc1, su1, st1'⟩ := st1
  obtain ⟨b2, cp2, pp2, sel2, du2, nc2, gs2, ir2, au12, au22, at12, at22, pc2, su2, st2'⟩ := st2
  simp only at hb
  subst hb
  unfold applyAttackResult
  dsimp only
  cases hfw : findCardIndexById b1 d.winnerCardId with
  | none => rfl
  | some wi =>
    cases hfl : findCardIndexById b1 d.loserCardId with
    | none => rfl
    | some li =>
      dsimp only
      cases hW : b1[wi]? with
      | none => rfl
      | some W =>
        cases hL : b1[li]? with
        | none => rfl
        | some L =>
          dsimp only
          cases hWu : W.unitData with
          | none => rfl
          | some Wu =>
            cases hLu : L.unitData with
            | none => rfl
            | some Lu =>
              dsimp only
              by_cases hgo : d.gameOver
              · simp [hgo]
              · simp [hgo]

/-- C3. Two peers whose boards are identical converge after an attack:
the authoritative peer computes the outcome locally and applies it; the
receiving peer applies the same transmitted payload; every tile then has
the same owner, unit and revealed flag on both boards. -/
theorem attack_result_convergence (st1 st2 : GameState) (ai di np : Nat)
    (d : AttackResultData)
    (hres : resolveAttackLocally st1 ai di np = some d)
    (hb : st1.board = st2.board) (k : Nat) (c1 c2 : Card)
    (h1 : (applyAttackResult st1 d).board[k]? = some c1)
    (h2 : (applyAttackResult st2 d).board[k]? = some c2) :
    c1.owner = c2.owner ∧ c1.unitData = c2.unitData ∧ c1.hidden = c2.hidden := by
  rw [applyAttackResult_board_congr hb d] at h1
  rw [h1] at h2
  cases h2
  exact ⟨rfl, rfl, rfl⟩

/-- Witness for C3: both peers start from the `stTie` board; after the tie
outcome is applied on each, tile 0 agrees on owner, unit and reveal flag. -/
theorem attack_result_convergence_witness :
    tiePostCard0.owner = tiePostCard0.owner ∧
    tiePostCard0.unitData = tiePostCard0.unitData ∧
    tiePostCard0.hidden = tiePostCard0.hidden :=
  attack_result_convergence stTie stTie 0 1 2 tieOutcome rfl rfl 0
    tiePostCard0 tiePostCard0 rfl rfl

/-! ### C5: placement alternation -/

lemma mkAutoPairs_owner {o : Nat} {units : List UnitData} {terrains : List TerrainObj}
    {p : AutoPair} (h : p ∈ mkAutoPairs o units terrains) : p.owner = o := by
  unfold mkAutoPairs at h
  rw [List.mem_mapIdx] at h
  obtain ⟨i, hi, he⟩ := h
  rw [← he]

lemma autoPlaceLoop_spec (p1Pairs p2Pairs : List AutoPair) (pick : Nat → Nat)
    (h1 : ∀ p ∈ p1Pairs, p.owner = 1) (h2 : ∀ p ∈ p2Pairs, p.owner = 2) :
    ∀ (n turn : Nat) (placed : List (Int × Int)) (cid : Nat) (res : List AutoAction),
      autoPlaceLoop p1Pairs p2Pairs pick n turn placed cid = some res →
      res.length = n ∧
      ∀ i (h : i < res.length), (res.get ⟨i, h⟩).owner = (turn + i) % 2 + 1 := by
  intro n
  induction n with
  | zero =>
    intro turn placed cid res h
    unfold autoPlaceLoop at h
    cases h
    exact ⟨rfl, fun i hi => absurd hi (by simp)⟩
  | succ m ih =>
    intro turn placed cid res h
    unfold autoPlaceLoop at h
    dsimp only at h
    cases hp : (if turn % 2 + 1 = 1 then p1Pairs else p2Pairs)[turn / 2]? with
    | none => simp only [hp] at h; cases h
    | some action =>
      simp only [hp] at h
      cases hs : (potentialSpots placed)[pick turn % (potentialSpots placed).length]? with
      | none => simp only [hs] at h; cases h
      | some chosen =>
        simp only [hs] at h
        cases hrec : autoPlaceLoop p1Pairs p2Pairs pick m (turn + 1)
            (placed ++ [chosen]) (cid + 1) with
        | none => simp only [hrec] at h; cases h
        | some rest =>
          simp only [hrec] at h
          cases h
          obtain ⟨hlen, hown⟩ := ih (turn + 1) (placed ++ [chosen]) (cid + 1) rest hrec
          refine ⟨by simp [hlen], ?_⟩
          intro i hi
          cases i with
          | zero =>
            have hmem : action ∈ (if turn % 2 + 1 = 1 then p1Pairs else p2Pairs) :=
              List.getElem?_mem hp
            by_cases hturn : turn % 2 + 1 = 1
            · rw [hturn] at hmem
              simp only [if_true] at hmem
              have : action.owner = 1 := h1 action (by simpa [hturn] using hmem)
              simpa [this] using by omega
            · have hmem2 : action ∈ p2Pairs := by simpa [hturn] using hmem
              have : action.owner = 2 := h2 action hmem2
              have hmod : turn % 2 = 1 := by omega
              simp [this, hmod]
          | succ j =>
            have hj : j < rest.length := by simpa using hi
            have := hown j hj
            simp only [List.get_cons_succ]
            rw [this]
            omega

lemma selectUnitForPlacement_currentPlayer (st : GameState) (r : Nat) (u : UnitData) :
    (selectUnitForPlacement st r u).currentPlayer = st.currentPlayer := by
  unfold selectUnitForPlacement
  split <;> rfl

lemma selectTerrainForPlacement_currentPlayer (st : GameState) (r : Nat) (t : TerrainObj) :
    (selectTerrainForPlacement st r t).currentPlayer = st.currentPlayer := by
  unfold selectTerrainForPlacement
  split <;> rfl

lemma applyPlacement_currentPlayer (st : GameState) (d : PlacementData) :
    (applyPlacement st d).currentPlayer = d.nextPlayer := by
  unfold applyPlacement
  dsimp only
  repeat' split
  all_goals rfl

lemma handleBoardClickForPlacement_none {st st' : GameState} {role : Nat}
    {conn : Bool} {click : Option (Int × Int)}
    (h : handleBoardClickForPlacement st role conn click = (st', none)) : st' = st := by
  unfold handleBoardClickForPlacement at h
  repeat' split at h
  all_goals simp_all

lemma handleBoardClickForPlacement_some {st st' : GameState} {role : Nat}
    {conn : Bool} {click : Option (Int × Int)} {d : PlacementData}
    (h : handleBoardClickForPlacement st role conn click = (st', some d)) :
    d.owner = st.currentPlayer ∧
    d.nextPlayer = (if st.currentPlayer = 1 then 2 else 1) ∧
    st' = applyPlacement st d := by
  unfold handleBoardClickForPlacement at h
  repeat' split at h
  all_goals simp_all
  all_goals
    obtain ⟨h1, h2⟩ := h
  all_goals subst h2
  all_goals exact ⟨rfl, rfl, h1.symm⟩

lemma other_player_mem {p : Nat} :
    (if p = 1 then 2 else 1) = 1 ∨ (if p = 1 then 2 else 1) = 2 := by
  by_cases hp : p = 1 <;> simp [hp]

lemma placementTrace_owners {role : Nat} {st stEnd : GameState} {owners : List Nat}
    (tr : PlacementTrace role st stEnd owners) :
    st.currentPlayer = 1 ∨ st.currentPlayer = 2 →
    ∀ i (h : i < owners.length),
      owners.get ⟨i, h⟩ =
        if i % 2 = 0 then st.currentPlayer
        else if st.currentPlayer = 1 then 2 else 1 := by
  induction tr with
  | nil st =>
    intro _ i h
    simp at h
  | localPlaced st stMid stEnd u t conn click d owners hclick htail ih =>
    intro hp i h
    obtain ⟨ho, hn, hst⟩ := handleBoardClickForPlacement_some hclick
    rw [selectTerrainForPlacement_currentPlayer, selectUnitForPlacement_currentPlayer] at ho hn
    have hcpMid : stMid.currentPlayer = if st.currentPlayer = 1 then 2 else 1 := by
      rw [hst, applyPlacement_currentPlayer, hn]
    have hpMid : stMid.currentPlayer = 1 ∨ stMid.currentPlayer = 2 := by
      rw [hcpMid]; exact other_player_mem
    cases i with
    | zero => simpa using ho
    | succ j =>
      have hj : j < owners.length := by simpa using h
      have hih := ih hpMid j hj
      simp only [List.get_cons_succ]
      rw [hih, hcpMid]
      rcases hp with hcp | hcp <;>
        rcases Nat.mod_two_eq_zero_or_one j with hj2 | hj2 <;>
        first
          | (have hj3 : (j + 1) % 2 = 1 := by omega
             simp [hcp, hj2, hj3])
          | (have hj3 : (j + 1) % 2 = 0 := by omega
             simp [hcp, hj2, hj3])
  | localRejected st stMid stEnd u t conn click owners hclick htail ih =>
    intro hp i h
    have hst := handleBoardClickForPlacement_none hclick
    have hcpMid : stMid.currentPlayer = st.currentPlayer := by
      rw [hst, selectTerrainForPlacement_currentPlayer, selectUnitForPlacement_currentPlayer]
    have hih := ih (by rw [hcpMid]; exact hp) i h
    rw [hih, hcpMid]
  | remotePlacement st stEnd d owners howner hnext htail ih =>
    intro hp i h
    have hcpMid : (applyPlacement st d).currentPlayer = if st.currentPlayer = 1 then 2 else 1 := by
      rw [applyPlacement_currentPlayer, hnext]
    have hpMid : (applyPlacement st d).currentPlayer = 1 ∨
        (applyPlacement st d).currentPlayer = 2 := by
      rw [hcpMid]; exact other_player_mem
    cases i with
    | zero => simpa using howner
    | succ j =>
      have hj : j < owners.length := by simpa using h
      have hih := ih hpMid j hj
      simp only [List.get_cons_succ]
      rw [hih, hcpMid]
      rcases hp with hcp | hcp <;>
        rcases Nat.mod_two_eq_zero_or_one j with hj2 | hj2 <;>
        first
          | (have hj3 : (j + 1) % 2 = 1 := by omega
             simp [hcp, hj2, hj3])
          | (have hj3 : (j + 1) % 2 = 0 := by omega
             simp [hcp, hj2, hj3])

/-- C5. Placement alternation. Auto-placement: for any pools, starting id
and random oracle, a successful `generateAutoPlacements` run yields
exactly 16 actions whose owners are 1, 2, 1, 2, … regardless of the
chosen board positions. Interactive placement: along any trace of local
placement clicks and protocol-conforming remote placement messages
starting with player 1 to place, the owners of the successive placements
are 1, 2, 1, 2, … as well. -/
theorem placement_alternation :
    (∀ (p1U : List UnitData) (p1T : List TerrainObj) (p2U : List UnitData)
        (p2T : List TerrainObj) (sid : Nat) (pick : Nat → Nat) (acts : List AutoAction),
      generateAutoPlacements p1U p1T p2U p2T sid pick = some acts →
        acts.length = TOTAL_CARD_PAIRS_TO_PLACE ∧
        ∀ i (h : i < acts.length), (acts.get ⟨i, h⟩).owner = i % 2 + 1) ∧
    (∀ (role : Nat) (st stEnd : GameState) (owners : List Nat),
      PlacementTrace role st stEnd owners → st.currentPlayer = 1 →
      ∀ i (h : i < owners.length), owners.get ⟨i, h⟩ = i % 2 + 1) := by
  constructor
  · intro p1U p1T p2U p2T sid pick acts h
    obtain ⟨hlen, hown⟩ := autoPlaceLoop_spec (mkAutoPairs 1 p1U p1T) (mkAutoPairs 2 p2U p2T)
      pick (fun p hp => mkAutoPairs_owner hp) (fun p hp => mkAutoPairs_owner hp)
      TOTAL_CARD_PAIRS_TO_PLACE 0 [] sid acts h
    exact ⟨hlen, fun i hi => by simpa using hown i hi⟩
  · intro role st stEnd owners tr hcp i h
    rw [placementTrace_owners tr (Or.inl hcp) i h, hcp]
    rcases Nat.mod_two_eq_zero_or_one i with hi | hi <;> simp [hi] <;> omega

/-- Witness for C5: the auto-placement run on the canonical pools with the
all-zeros oracle succeeds and yields the full 16 actions. -/
theorem placement_alternation_witness :
    autoActions0.length = TOTAL_CARD_PAIRS_TO_PLACE :=
  (placement_alternation.1 (playerUnitsPool 1) (playerTerrainsPool 1) (playerUnitsPool 2)
    (playerTerrainsPool 2) 0 (fun _ => 0) autoActions0 rfl).1

/-! ### C8: win by elimination -/

lemma getElem?_modify2 {b : List Card} {li wi : Nat} (hne : li ≠ wi)
    (f g : Card → Card) (j : Nat) :
    (modifyAt (modifyAt b li f) wi g)[j]? =
      if j = wi then (b[j]?).map g else if j = li then (b[j]?).map f else b[j]? := by
  rw [getElem?_modifyAt, getElem?_modifyAt]
  by_cases hjw : j = wi
  · subst hjw
    rw [if_pos rfl, if_pos rfl, if_neg (Ne.symm hne)]
  · rw [if_neg hjw, if_neg hjw]

lemma filter_length_zero_iff {l : List Card} {P : Card → Bool} :
    (l.filter P).length = 0 ↔ ∀ (j : Nat) (c : Card), l[j]? = some c → P c = false := by
  rw [List.length_eq_zero, List.filter_eq_nil_iff]
  constructor
  · intro h j c hj
    exact Bool.not_eq_true _ ▸ h c (List.getElem?_mem hj)
  · intro h a ha
    rcases List.mem_iff_getElem?.mp ha with ⟨j, hj⟩
    rw [h j a hj]
    simp

lemma any_eq_true_iff {l : List Card} {E : Card → Bool} :
    (l.any E = true) ↔ ∃ (j : Nat) (c : Card), l[j]? = some c ∧ E c = true := by
  rw [List.any_eq_true]
  constructor
  · rintro ⟨x, hx, hE⟩
    rcases List.mem_iff_getElem?.mp hx with ⟨j, hj⟩
    exact ⟨j, x, hj, hE⟩
  · rintro ⟨j, c, hj, hE⟩
    exact ⟨c, List.getElem?_mem hj, hE⟩

/-- The post-capture count of tiles satisfying `P` is zero exactly when
the pre-capture count excluding the loser tile is zero, provided the two
tile rewrites shuffle the `P`-values as the capture does (one of them
carries the winner's value, the other is cleared). -/
lemma elimination_count_iff {b : List Card} {li wi : Nat} {L W : Card}
    (hnodup : (b.map Card.id).Nodup) (hL : b[li]? = some L) (hW : b[wi]? = some W)
    (hne : li ≠ wi) (f g : Card → Card) (P : Card → Bool)
    (hcase : (P (f L) = P W ∧ P (g W) = false) ∨ (P (f L) = false ∧ P (g W) = P W)) :
    ((modifyAt (modifyAt b li f) wi g).filter P).length = 0 ↔
      (b.filter (fun c => P c && c.id != L.id)).length = 0 := by
  rw [filter_length_zero_iff, filter_length_zero_iff]
  constructor
  · intro h j c hj
    by_cases hjl : j = li
    · have hcL : c = L := by
        rw [hjl, hL] at hj
        exact (Option.some.inj hj).symm
      rw [hcL]
      simp
    · have hid : c.id ≠ L.id := getElem?_ne_id hnodup hj hL hjl
      have hPc : P c = false := by
        by_cases hjw : j = wi
        · have hcW : c = W := by
            rw [hjw, hW] at hj
            exact (Option.some.inj hj).symm
          rw [hcW]
          rcases hcase with ⟨h1, h2⟩ | ⟨h1, h2⟩
          · have := h li (f L) (by rw [getElem?_modify2 hne, if_neg hne, if_pos rfl, hL]; rfl)
            rw [h1] at this
            exact this
          · have := h wi (g W) (by rw [getElem?_modify2 hne, if_pos rfl, hW]; rfl)
            rw [h2] at this
            exact this
        · exact h j c (by rw [getElem?_modify2 hne, if_neg hjw, if_neg hjl]; exact hj)
      simp [hPc]
  · intro h j c hj
    rw [getElem?_modify2 hne] at hj
    have hWP : P W = false := by
      have hid : (W.id != L.id) = true := by
        simp [getElem?_ne_id hnodup hW hL (Ne.symm hne)]
      have := h wi W hW
      rw [hid] at this
      simpa using this
    by_cases hjw : j = wi
    · rw [if_pos hjw, hjw, hW] at hj
      simp only [Option.map_some', Option.some.injEq] at hj
      subst hj
      rcases hcase with ⟨h1, h2⟩ | ⟨h1, h2⟩
      · exact h2
      · rw [h2]
        exact hWP
    · rw [if_neg hjw] at hj
      by_cases hjl : j = li
      · rw [if_pos hjl, hjl, hL] at hj
        simp only [Option.map_some', Option.some.injEq] at hj
        subst hj
        rcases hcase with ⟨h1, h2⟩ | ⟨h1, h2⟩
        · rw [h1]
          exact hWP
        · exact h1
      · rw [if_neg hjl] at hj
        have hid : (c.id != L.id) = true := by
          simp [getElem?_ne_id hnodup hj hL hjl]
        have := h j c hj
        rw [hid] at this
        simpa using this

/-- The post-capture board has a tile satisfying `E` exactly when the
pre-capture board minus the loser tile has one, under the same
value-shuffling hypothesis. -/
lemma elimination_any_iff {b : List Card} {li wi : Nat} {L W : Card}
    (hnodup : (b.map Card.id).Nodup) (hL : b[li]? = some L) (hW : b[wi]? = some W)
    (hne : li ≠ wi) (f g : Card → Card) (E : Card → Bool)
    (hcase : (E (f L) = E W ∧ E (g W) = false) ∨ (E (f L) = false ∧ E (g W) = E W)) :
    ((modifyAt (modifyAt b li f) wi g).any E = true) ↔
      (b.any (fun c => E c && c.id != L.id) = true) := by
  rw [any_eq_true_iff, any_eq_true_iff]
  have hidW : (W.id != L.id) = true := by
    simp [getElem?_ne_id hnodup hW hL (Ne.symm hne)]
  constructor
  · rintro ⟨j, c, hj, hE⟩
    rw [getElem?_modify2 hne] at hj
    by_cases hjw : j = wi
    · rw [if_pos hjw, hjw, hW] at hj
      simp only [Option.map_some', Option.some.injEq] at hj
      subst hj
      rcases hcase with ⟨h1, h2⟩ | ⟨h1, h2⟩
      · rw [h2] at hE
        cases hE
      · rw [h2] at hE
        exact ⟨wi, W, hW, by simp [hE, hidW]⟩
    · rw [if_neg hjw] at hj
      by_cases hjl : j = li
      · rw [if_pos hjl, hjl, hL] at hj
        simp only [Option.map_some', Option.some.injEq] at hj
        subst hj
        rcases hcase with ⟨h1, h2⟩ | ⟨h1, h2⟩
        · rw [h1] at hE
          exact ⟨wi, W, hW, by simp [hE, hidW]⟩
        · rw [h1] at hE
          cases hE
      · rw [if_neg hjl] at hj
        have hid : (c.id != L.id) = true := by
          simp [getElem?_ne_id hnodup hj hL hjl]
        exact ⟨j, c, hj, by simp [hE, hid]⟩
  · rintro ⟨j, c, hj, hE⟩
    rw [Bool.and_eq_true] at hE
    obtain ⟨hEc, hidc⟩ := hE
    have hjl : j ≠ li := by
      intro he
      rw [he, hL] at hj
      cases hj
      simp at hidc
    by_cases hjw : j = wi
    · have hcW : c = W := by
        rw [hjw, hW] at hj
        exact (Option.some.inj hj).symm
      subst hcW
      rcases hcase with ⟨h1, h2⟩ | ⟨h1, h2⟩
      · refine ⟨li, f L, ?_, by rw [h1]; exact hEc⟩
        rw [getElem?_modify2 hne, if_neg hne, if_pos rfl, hL]
        rfl
      · refine ⟨wi, g c, ?_, by rw [h2]; exact hEc⟩
        rw [getElem?_modify2 hne, if_pos rfl, hW]
        rfl
    · refine ⟨j, c, ?_, hEc⟩
      rw [getElem?_modify2 hne, if_neg hjw, if_neg hjl]
      exact hj

lemma applyAttackResult_board {st : GameState} {d : AttackResultData} {wi li : Nat}
    {W L : Card} {Wu Lu : UnitData}
    (hfw : findCardIndexById st.board d.winnerCardId = some wi)
    (hfl : findCardIndexById st.board d.loserCardId = some li)
    (hW : st.board[wi]? = some W) (hL : st.board[li]? = some L)
    (hWu : W.unitData = some Wu) (hLu : L.unitData = some Lu) :
    (applyAttackResult st d).board =
      if d.attackerMoved then
        modifyAt (modifyAt st.board li (fun l =>
          { l with unitData := W.unitData, owner := W.owner, hidden := false })) wi
          (fun w => { w with unitData := none, owner := none, hidden := true })
      else
        modifyAt (modifyAt st.board li (fun l =>
          { l with unitData := none, owner := none, hidden := true })) wi
          (fun w => { w with hidden := false }) := by
  unfold applyAttackResult
  simp only [hfw, hfl, hW, hL, hWu, hLu]
  by_cases hgo : d.gameOver
  · simp [hgo]
  · simp [hgo]

/-- C8. Win by elimination: when the defeated unit of a locally resolved
attack is not the Mobile Command, the outcome is game over exactly when,
on the board after the capture is applied, the losing owner has no tile
holding a non-empty non-command unit while still having a Mobile Command
on the board. In particular the elimination path never fires when the
losing owner's Mobile Command is absent from the post-capture board. -/
theorem win_by_elimination (st : GameState) (ai di np : Nat)
    (aC dC : Card) (aU dU : UnitData) (dir : Dir) (d : AttackResultData)
    (hnodup : (st.board.map Card.id).Nodup)
    (ha : st.board[ai]? = some aC) (hd : st.board[di]? = some dC)
    (hau : aC.unitData = some aU) (hdu : dC.unitData = some dU)
    (hdir : getDirectionInfo aC dC = some dir)
    (hres : resolveAttackLocally st ai di np = some d)
    (lu : UnitData) (hlu : d.defeatedUnitData.unitData = some lu)
    (hnotMC : lu.unitName ≠ commandUnitName) :
    d.gameOver = true ↔
      (((applyAttackResult st d).board.filter (fun c =>
          c.owner == d.defeatedUnitData.owner && hasNonCommandUnit c)).length = 0 ∧
       ((applyAttackResult st d).board.any (fun c =>
          hasCommandUnit c && c.owner == d.defeatedUnitData.owner)) = true) := by
  rw [resolveAttackLocally_eq ha hd hau hdu hdir] at hres
  replace hres := Option.some.inj hres
  subst hres
  have hne2 : ai ≠ di := by
    intro he
    apply getDirectionInfo_ne hdir
    rw [he] at ha
    rw [ha] at hd
    exact Option.some.inj hd
  by_cases haw : aU.stats.attack >
      dU.stats.defense + terrainRules (oppositeEdge dC.terrainData.terrainData dir)
  · -- attacker wins: the loser is the defender `dC` at index `di`
    have hluEq : lu = dU := by
      simp [mkAttackOutcome, haw, hdu] at hlu
      exact hlu.symm
    have hcmdF : (dU.unitName == commandUnitName) = false := by
      rw [← hluEq]
      exact beq_eq_false_iff_ne.mpr hnotMC
    have hwid : (mkAttackOutcome st.board st.currentPlayer aC dC aU dU dir np).winnerCardId
        = aC.id := by simp [mkAttackOutcome, haw]
    have hlid : (mkAttackOutcome st.board st.currentPlayer aC dC aU dU dir np).loserCardId
        = dC.id := by simp [mkAttackOutcome, haw]
    have hfw : findCardIndexById st.board
        (mkAttackOutcome st.board st.currentPlayer aC dC aU dU dir np).winnerCardId
        = some ai := by rw [hwid]; exact findCardIndexById_nodup hnodup ha
    have hfl : findCardIndexById st.board
        (mkAttackOutcome st.board st.currentPlayer aC dC aU dU dir np).loserCardId
        = some di := by rw [hlid]; exact findCardIndexById_nodup hnodup hd
    have ham : (mkAttackOutcome st.board st.currentPlayer aC dC aU dU dir np).attackerMoved
        = true := by simp [mkAttackOutcome, haw]
    have hdo : (mkAttackOutcome st.board st.currentPlayer aC dC aU dU dir np).defeatedUnitData.owner
        = dC.owner := by simp [mkAttackOutcome, haw]
    have hboard := applyAttackResult_board hfw hfl ha hd hau hdu
    rw [ham, if_pos rfl] at hboard
    have hgo : (mkAttackOutcome st.board st.currentPlayer aC dC aU dU dir np).gameOver
        = ((st.board.filter (fun c =>
            c.owner == dC.owner && hasNonCommandUnit c && c.id != dC.id)).length == 0 &&
          st.board.any (fun c =>
            hasCommandUnit c && c.owner == dC.owner && c.id != dC.id)) := by
      simp [mkAttackOutcome, haw, hcmdF]
    have hcnt := elimination_count_iff hnodup hd ha (Ne.symm hne2)
      (fun l => { l with unitData := aC.unitData, owner := aC.owner, hidden := false })
      (fun w => { w with unitData := none, owner := none, hidden := true })
      (fun c => c.owner == dC.owner && hasNonCommandUnit c)
      (Or.inl ⟨by simp [hasNonCommandUnit], by simp [hasNonCommandUnit]⟩)
    have hany := elimination_any_iff hnodup hd ha (Ne.symm hne2)
      (fun l => { l with unitData := aC.unitData, owner := aC.owner, hidden := false })
      (fun w => { w with unitData := none, owner := none, hidden := true })
      (fun c => hasCommandUnit c && c.owner == dC.owner)
      (Or.inl ⟨by simp [hasCommandUnit], by simp [hasCommandUnit]⟩)
    simp only [hdo, hboard]
    rw [hgo]
    constructor
    · intro h
      rw [Bool.and_eq_true] at h
      exact ⟨hcnt.mpr (beq_iff_eq.mp h.1), hany.mpr h.2⟩
    · rintro ⟨h1, h2⟩
      rw [Bool.and_eq_true]
      exact ⟨beq_iff_eq.mpr (hcnt.mp h1), hany.mp h2⟩
  · -- defender wins: the loser is the attacker `aC` at index `ai`
    have hluEq : lu = aU := by
      simp [mkAttackOutcome, haw, hau] at hlu
      exact hlu.symm
    have hcmdF : (aU.unitName == commandUnitName) = false := by
      rw [← hluEq]
      exact beq_eq_false_iff_ne.mpr hnotMC
    have hwid : (mkAttackOutcome st.board st.currentPlayer aC dC aU dU dir np).winnerCardId
        = dC.id := by simp [mkAttackOutcome, haw]
    have hlid : (mkAttackOutcome st.board st.currentPlayer aC dC aU dU dir np).loserCardId
        = aC.id := by simp [mkAttackOutcome, haw]
    have hfw : findCardIndexById st.board
        (mkAttackOutcome st.board st.currentPlayer aC dC aU dU dir np).winnerCardId
        = some di := by rw [hwid]; exact findCardIndexById_nodup hnodup hd
    have hfl : findCardIndexById st.board
        (mkAttackOutcome st.board st.currentPlayer aC dC aU dU dir np).loserCardId
        = some ai := by rw [hlid]; exact findCardIndexById_nodup hnodup ha
    have ham : (mkAttackOutcome st.board st.currentPlayer aC dC aU dU dir np).attackerMoved
        = false := by simp [mkAttackOutcome, haw]
    have hdo : (mkAttackOutcome st.board st.currentPlayer aC dC aU dU dir np).defeatedUnitData.owner
        = aC.owner := by simp [mkAttackOutcome, haw]
    have hboard := applyAttackResult_board hfw hfl hd ha hdu hau
    rw [ham] at hboard
    simp only [Bool.false_eq_true, if_false] at hboard
    have hgo : (mkAttackOutcome st.board st.currentPlayer aC dC aU dU dir np).gameOver
        = ((st.board.filter (fun c =>
            c.owner == aC.owner && hasNonCommandUnit c && c.id != aC.id)).length == 0 &&
          st.board.any (fun c =>
            hasCommandUnit c && c.owner == aC.owner && c.id != aC.id)) := by
      simp [mkAttackOutcome, haw, hcmdF]
    have hcnt := elimination_count_iff hnodup ha hd hne2
      (fun l => { l with unitData := none, owner := none, hidden := true })
      (fun w => { w with hidden := false })
      (fun c => c.owner == aC.owner && hasNonCommandUnit c)
      (Or.inr ⟨by simp [hasNonCommandUnit], by simp [hasNonCommandUnit]⟩)
    have hany := elimination_any_iff hnodup ha hd hne2
      (fun l => { l with unitData := none, owner := none, hidden := true })
      (fun w => { w with hidden := false })
      (fun c => hasCommandUnit c && c.owner == aC.owner)
      (Or.inr ⟨by simp [hasCommandUnit], by simp [hasCommandUnit]⟩)
    simp only [hdo, hboard]
    rw [hgo]
    constructor
    · intro h
      rw [Bool.and_eq_true] at h
      exact ⟨hcnt.mpr (beq_iff_eq.mp h.1), hany.mpr h.2⟩
    · rintro ⟨h1, h2⟩
      rw [Bool.and_eq_true]
      exact ⟨beq_iff_eq.mpr (hcnt.mp h1), hany.mp h2⟩

/-- Witness for C8: the elimination attack on `stElim` defeats player 2's
last non-command unit while their Mobile Command remains; the outcome is
game over and the post-capture board satisfies both sides of the
equivalence. -/
theorem win_by_elimination_witness :
    ((applyAttackResult stElim elimOutcome).board.filter (fun c =>
        c.owner == elimOutcome.defeatedUnitData.owner && hasNonCommandUnit c)).length = 0 ∧
    ((applyAttackResult stElim elimOutcome).board.any (fun c =>
        hasCommandUnit c && c.owner == elimOutcome.defeatedUnitData.owner)) = true :=
  (win_by_elimination stElim 0 1 2
      { id := 30, unitData := some (tankUnit 1 1), terrainData := mkTerrainObj 1 2,
        hidden := false, owner := some 1, gridX := 10, gridY := 10 }
      { id := 31, unitData := some (infantryUnit 2 1), terrainData := mkTerrainObj 2 2,
        hidden := false, owner := some 2, gridX := 11, gridY := 10 }
      (tankUnit 1 1) (infantryUnit 2 1) Dir.right elimOutcome
      (by decide) rfl rfl rfl rfl rfl rfl (infantryUnit 2 1) rfl
      (by decide)).mp rfl

/-- Witness for C1 (amended theorem) at a concrete input: on `stMove` the
move empties the origin tile it re-hides. -/
theorem reveal_monotonicity_amended_witness :
    stMove.board[0]? = some
      { id := 0, unitData := some (infantryUnit 1 1), terrainData := mkTerrainObj 1 2,
        hidden := false, owner := some 1, gridX := 10, gridY := 10 } ∧
    (applyMove stMove 0 1 2).board[0]? = some
      { id := 0, unitData := none, terrainData := mkTerrainObj 1 2,
        hidden := true, owner := none, gridX := 10, gridY := 10 } ∧
    (none : Option UnitData) = none ∧ (none : Option Nat) = none := by
  refine ⟨rfl, rfl, ?_⟩
  exact (reveal_monotonicity_amended stMove 0 0 1 2 junkAttackData).2.1 0
    { id := 0, unitData := some (infantryUnit 1 1), terrainData := mkTerrainObj 1 2,
      hidden := false, owner := some 1, gridX := 10, gridY := 10 }
    { id := 0, unitData := none, terrainData := mkTerrainObj 1 2,
      hidden := true, owner := none, gridX := 10, gridY := 10 }
    rfl rfl rfl rfl

end Fogline
